import Mathlib

/-!
Verification of the date-normalization core of `ccao_calendar_collector.py`.

The Python source is shallowly embedded below.  Machine integers are `Nat`;
Python strings are Lean `String` / `List Char`; fallible operations return
`Option`.  `datetime.strptime` with the three formats used by the source
("%B %d, %Y", "%b %d, %Y", "%m/%d/%Y") is embedded by hand-translating the
regular expressions CPython's `_strptime` compiles for those formats:
  %m = (1[0-2]|0[1-9]|[1-9]) ; %d = (3[01]|[12]\d|0[1-9]|[1-9]| [1-9]) ;
  %Y = \d\d\d\d ; a whitespace run in the format matches \s+ ; month names
match case-insensitively; the whole string must be consumed; the numbers are
then validated by the `datetime.date` constructor (1 <= year <= 9999).
-/

/-! ## Character classes (ASCII, as exercised by the source's data) -/

def isDigitC (c : Char) : Bool := '0' ≤ c && c ≤ '9'

def isAlphaC (c : Char) : Bool := ('A' ≤ c && c ≤ 'Z') || ('a' ≤ c && c ≤ 'z')

def isSpaceC (c : Char) : Bool :=
  c == ' ' || c == '\t' || c == '\n' || c == '\r' || c == '\x0b' || c == '\x0c'

def toLowerC (c : Char) : Char :=
  if 'A' ≤ c && c ≤ 'Z' then Char.ofNat (c.toNat + 32) else c

def toUpperC (c : Char) : Char :=
  if 'a' ≤ c && c ≤ 'z' then Char.ofNat (c.toNat - 32) else c

def charVal (c : Char) : Nat := c.toNat - 48

/-- Value of a digit string read left to right (used by the embedded
number parsers). -/
def charsVal (l : List Char) : Nat := l.foldl (fun a c => 10 * a + charVal c) 0

/-- Decimal digit character, `0 ≤ d ≤ 9` in all uses. -/
def digitChar10 : Nat → Char
  | 0 => '0' | 1 => '1' | 2 => '2' | 3 => '3' | 4 => '4'
  | 5 => '5' | 6 => '6' | 7 => '7' | 8 => '8' | 9 => '9'
  | _ => '*'

/-- Decimal rendering of a natural number, big-endian (fuel-structured so it
reduces definitionally; `fuel = n` always suffices since `n / 10 < n`). -/
def natDigitsF : Nat → Nat → List Char → List Char
  | 0, n, acc => digitChar10 (n % 10) :: acc
  | fuel + 1, n, acc =>
    if n < 10 then digitChar10 n :: acc
    else natDigitsF fuel (n / 10) (digitChar10 (n % 10) :: acc)

def natDigits (n : Nat) : List Char := natDigitsF n n []

def natStr (n : Nat) : String := String.mk (natDigits n)

/-! ## Canonical dates (`datetime.date` values) -/

structure Date where
  year : Nat
  month : Nat
  day : Nat
deriving DecidableEq, Repr

def isLeap (y : Nat) : Bool := y % 4 == 0 && (y % 100 != 0 || y % 400 == 0)

def daysInMonth (y m : Nat) : Nat :=
  if m == 2 then (if isLeap y then 29 else 28)
  else if m == 4 || m == 6 || m == 9 || m == 11 then 30
  else 31

/-- Validity as enforced by the `datetime.date` constructor. -/
def validDate (y m d : Nat) : Prop :=
  1 ≤ y ∧ y ≤ 9999 ∧ 1 ≤ m ∧ m ≤ 12 ∧ 1 ≤ d ∧ d ≤ daysInMonth y m

instance (y m d : Nat) : Decidable (validDate y m d) := by
  unfold validDate; infer_instance

/-- `datetime.date(y, m, d)`: a value on success, `None` standing for the
`ValueError` the constructor raises on invalid components. -/
def mkDate (y m d : Nat) : Option Date :=
  if validDate y m d then some ⟨y, m, d⟩ else none

/-- Successor day, pure calendar arithmetic with month and year rollover. -/
def nextDay (dt : Date) : Date :=
  if dt.day < daysInMonth dt.year dt.month then ⟨dt.year, dt.month, dt.day + 1⟩
  else if dt.month < 12 then ⟨dt.year, dt.month + 1, 1⟩
  else ⟨dt.year + 1, 1, 1⟩

/-- Pure calendar addition of `n` days (the specification-side notion,
no upper bound on the year). -/
def addDaysSpec : Date → Nat → Date
  | dt, 0 => dt
  | dt, n + 1 => addDaysSpec (nextDay dt) n

/-- `date + timedelta(days = n)` as Python computes it: `datetime.date`
cannot represent dates past 12/31/9999, so stepping past it raises
`OverflowError`, embedded as `none`. -/
def addDaysChecked : Date → Nat → Option Date
  | dt, 0 => some dt
  | dt, n + 1 =>
    if dt.year = 9999 ∧ dt.month = 12 ∧ dt.day = 31 then none
    else addDaysChecked (nextDay dt) n

/-! ## Weekday and month names (strftime "%A" / "%B" tables) -/

/-- Days in all years before `y` in the proleptic Gregorian calendar
(`datetime._days_before_year`). -/
def daysBeforeYear (y : Nat) : Nat :=
  let n := y - 1
  365 * n + (n / 4 - n / 100 + n / 400)

def daysBeforeMonth (y m : Nat) : Nat :=
  (List.range (m - 1)).foldl (fun acc i => acc + daysInMonth y (i + 1)) 0

/-- `date.toordinal()`: 1 for January 1 of year 1. -/
def toOrdinal (dt : Date) : Nat :=
  daysBeforeYear dt.year + daysBeforeMonth dt.year dt.month + dt.day

/-- `date.weekday()`: 0 = Monday, ..., 6 = Sunday. -/
def dayOfWeekIdx (dt : Date) : Nat := (toOrdinal dt + 6) % 7

def weekdayName : Nat → String
  | 0 => "Monday" | 1 => "Tuesday" | 2 => "Wednesday" | 3 => "Thursday"
  | 4 => "Friday" | 5 => "Saturday" | _ => "Sunday"

def monthName : Nat → String
  | 1 => "January" | 2 => "February" | 3 => "March" | 4 => "April"
  | 5 => "May" | 6 => "June" | 7 => "July" | 8 => "August"
  | 9 => "September" | 10 => "October" | 11 => "November" | _ => "December"

/-! ## format_date (source lines 34-42) -/

/-- Ordinal suffix exactly as the source computes it:
`"th" if 11 <= day <= 13 else {1: "st", 2: "nd", 3: "rd"}.get(day % 10, "th")`. -/
def ordSuffixCode (day : Nat) : String :=
  if 11 ≤ day ∧ day ≤ 13 then "th"
  else if day % 10 = 1 then "st"
  else if day % 10 = 2 then "nd"
  else if day % 10 = 3 then "rd"
  else "th"

/-- Ordinal suffix as the specification words it: day in {11,12,13} → "th";
else day mod 10 in {1,2,3} → {"st","nd","rd"}; else "th". -/
def ordSuffixSpec (day : Nat) : String :=
  if day = 11 ∨ day = 12 ∨ day = 13 then "th"
  else if day % 10 = 1 then "st"
  else if day % 10 = 2 then "nd"
  else if day % 10 = 3 then "rd"
  else "th"

/-- `dt.strftime(f"%A, %B {day}{suffix}, %Y")` on a parsed date. -/
def renderDate (dt : Date) : String :=
  weekdayName (dayOfWeekIdx dt) ++ ", " ++ monthName dt.month ++ " " ++
    natStr dt.day ++ ordSuffixCode dt.day ++ ", " ++ natStr dt.year

/-! ## The strptime parsers -/

/-- Consume an exact literal character. -/
def parseLit (c : Char) : List Char → Option (List Char)
  | x :: rest => if x = c then some rest else none
  | [] => none

/-- `\s+` (the translation of whitespace inside a strptime format). -/
def parseWs1 (l : List Char) : Option (List Char) :=
  if l.takeWhile isSpaceC = [] then none else some (l.dropWhile isSpaceC)

/-- The `%m` / first part of `%d` directive: a 1- or 2-digit number.
A maximal digit run of length 1 must be `[1-9]`; of length 2 its value must
be in `1..maxv` (covering `1[0-2]|0[1-9]` for months resp.
`3[01]|[12]\d|0[1-9]` for days); a longer run can never be followed by the
required separator, so it fails, exactly as the compiled regex does. -/
def parseNum2 (maxv : Nat) (l : List Char) : Option (Nat × List Char) :=
  if (l.takeWhile isDigitC).length = 1 ∨ (l.takeWhile isDigitC).length = 2 then
    if 1 ≤ charsVal (l.takeWhile isDigitC) ∧ charsVal (l.takeWhile isDigitC) ≤ maxv then
      some (charsVal (l.takeWhile isDigitC), l.dropWhile isDigitC)
    else none
  else none

/-- The full `%d` directive: `(3[01]|[12]\d|0[1-9]|[1-9]| [1-9])` — note the
last alternative, a space followed by a single nonzero digit. -/
def parseDayTok (l : List Char) : Option (Nat × List Char) :=
  match parseNum2 31 l with
  | some r => some r
  | none =>
    match l with
    | ' ' :: c :: rest =>
      if isDigitC c && c != '0' then some (charVal c, rest) else none
    | _ => none

/-- `%Y` at the end of the format: exactly four digits, then end of input
(else strptime raises "unconverted data remains"). -/
def parseYearEnd (l : List Char) : Option Nat :=
  match l with
  | [a, b, c, d] =>
    if isDigitC a && isDigitC b && isDigitC c && isDigitC d then
      some (charsVal [a, b, c, d])
    else none
  | _ => none

/-- Case-insensitive literal match, returning the rest of the input.
The pattern is given lowercase. -/
def ciDropLead : List Char → List Char → Option (List Char)
  | [], l => some l
  | p :: ps, c :: cs => if toLowerC c = p then ciDropLead ps cs else none
  | _ :: _, [] => none

/-- The `%B` / `%b` directive: first (equivalently: only, as no name is a
prefix of another) name in the table matching case-insensitively; yields
the 1-based month number. -/
def matchMonthList : List (List Char) → Nat → List Char → Option (Nat × List Char)
  | [], _, _ => none
  | nm :: rest, idx, l =>
    match ciDropLead nm l with
    | some r => some (idx, r)
    | none => matchMonthList rest (idx + 1) l

def monthFullNamesL : List (List Char) :=
  ["january".toList, "february".toList, "march".toList, "april".toList,
   "may".toList, "june".toList, "july".toList, "august".toList,
   "september".toList, "october".toList, "november".toList, "december".toList]

def monthAbbrNamesL : List (List Char) :=
  ["jan".toList, "feb".toList, "mar".toList, "apr".toList,
   "may".toList, "jun".toList, "jul".toList, "aug".toList,
   "sep".toList, "oct".toList, "nov".toList, "dec".toList]

/-- `datetime.strptime(s, "%B %d, %Y")` resp. `"%b %d, %Y"`, down to the
numbers. -/
def strptimeMonthNums (names : List (List Char)) (l : List Char) :
    Option (Nat × Nat × Nat) := do
  let (m, r1) ← matchMonthList names 1 l
  let r2 ← parseWs1 r1
  let (d, r3) ← parseDayTok r2
  let r4 ← parseLit ',' r3
  let r5 ← parseWs1 r4
  let y ← parseYearEnd r5
  pure (m, d, y)

/-- `datetime.strptime(s, "%m/%d/%Y")`, down to the numbers. -/
def strptimeSlashNums (l : List Char) : Option (Nat × Nat × Nat) := do
  let (m, r1) ← parseNum2 12 l
  let r2 ← parseLit '/' r1
  let (d, r3) ← parseDayTok r2
  let r4 ← parseLit '/' r3
  let y ← parseYearEnd r4
  pure (m, d, y)

/-- `datetime.strptime(s, "%m/%d/%Y").date()`. -/
def strptimeSlash (l : List Char) : Option Date :=
  (strptimeSlashNums l).bind fun x => mkDate x.2.2 x.1 x.2.1

/-- `datetime.strptime(s, "%B %d, %Y").date()`. -/
def strptimeFull (l : List Char) : Option Date :=
  (strptimeMonthNums monthFullNamesL l).bind fun x => mkDate x.2.2 x.1 x.2.1

/-- `datetime.strptime(s, "%b %d, %Y").date()`. -/
def strptimeAbbr (l : List Char) : Option Date :=
  (strptimeMonthNums monthAbbrNamesL l).bind fun x => mkDate x.2.2 x.1 x.2.1

/-! ## format_date at the string boundary (source lines 34-42) -/

def format_date (date_str : String) : String :=
  match strptimeSlash date_str.toList with
  | none => "TBD"
  | some dt => renderDate dt

/-- `_get_time` (source lines 44-46): the text of the `<time>` element when
present, else "TBD". -/
def getTime : Option String → String
  | none => "TBD"
  | some txt => format_date txt

/-! ## TriennialClassifier (source lines 136-144) -/

def determine_tri_label (years : List Int) (current : Int) : String :=
  if current ∈ years then "Yes"
  else if (current - 1) ∈ years then "No - 2nd Year of Tri"
  else if (current - 2) ∈ years then "No - 3rd Year of Tri"
  else "No"

/-! ## Deduplication (source lines 206-213) -/

/-- The two columns the deduplication rule inspects. -/
structure Row where
  township : String
  published : String
deriving DecidableEq, Repr

def pyLower (s : String) : String := String.mk (s.toList.map toLowerC)

def countTownship (rows : List Row) (t : String) : Nat :=
  (rows.filter (fun r => r.township == t)).length

/-- Lines 206-213: townships with more than one row keep only their
`Published? == "yes"` (lowercased) rows; those rows are re-appended after the
unique ones. -/
def dedupeRows (rows : List Row) : List Row :=
  let uniques := rows.filter (fun r => !decide (1 < countTownship rows r.township))
  let cleanedDupes :=
    (rows.filter (fun r => decide (1 < countTownship rows r.township))).filter
      (fun r => pyLower r.published == "yes")
  uniques ++ cleanedDupes

/-! ## The stripping pipeline of `_parse_one_date_token` (source lines 86-89) -/

/-- Python `str.strip()` (whitespace from both ends). -/
def pyStrip (l : List Char) : List Char :=
  ((l.dropWhile isSpaceC).reverse.dropWhile isSpaceC).reverse

/-- `re.sub(r'^[A-Za-z]+,\s+', '', s)`: drop a leading run of letters
followed by a comma and at least one whitespace character (all of the
whitespace run is part of the match and removed). -/
def dropWeekday (l : List Char) : List Char :=
  let letters := l.takeWhile isAlphaC
  if letters = [] then l
  else
    match l.drop letters.length with
    | ',' :: r2 =>
      if r2.takeWhile isSpaceC = [] then l else r2.dropWhile isSpaceC
    | _ => l

/-- The two-character ordinal suffixes recognized by
`re.sub(r'(\d{1,2})(st|nd|rd|th)', r'\1', s)` (case-sensitive). -/
def isOrdPair (c d : Char) : Bool :=
  (c == 's' && d == 't') || (c == 'n' && d == 'd') ||
  (c == 'r' && d == 'd') || (c == 't' && d == 'h')

/-- One left-to-right pass of the (global, non-overlapping) ordinal
substitution: at each position try `\d\d(st|nd|rd|th)` (the greedy 2-digit
form), then `\d(st|nd|rd|th)`, emitting the digits and skipping the suffix on
a match, else advancing one character.  Fuel-structured for definitional
reduction; `fuel = length` always suffices. -/
def dropOrdinalsF : Nat → List Char → List Char
  | 0, l => l
  | _ + 1, [] => []
  | fuel + 1, a :: rest =>
    match rest with
    | b :: c :: d :: rest2 =>
      if isOrdPair c d && isDigitC a && isDigitC b then
        a :: b :: dropOrdinalsF fuel rest2
      else if isOrdPair b c && isDigitC a then
        a :: dropOrdinalsF fuel (d :: rest2)
      else a :: dropOrdinalsF fuel rest
    | [b, c] =>
      if isOrdPair b c && isDigitC a then [a] else a :: dropOrdinalsF fuel rest
    | _ => a :: dropOrdinalsF fuel rest

def dropOrdinals (l : List Char) : List Char := dropOrdinalsF l.length l

/-! ## The embedded-token regex searches (source lines 95-109) -/

/-- Exact (case-sensitive) literal match, returning the rest. -/
def dropLead : List Char → List Char → Option (List Char)
  | [], l => some l
  | p :: ps, c :: cs => if c = p then dropLead ps cs else none
  | _ :: _, [] => none

/-- After a month name, the search pattern continues `\s+\d{1,2},\s*\d{4}`;
returns the matched continuation characters.  A maximal digit run of length
3+ before the comma can never match `\d{1,2},`, mirroring regex
backtracking. -/
def contMonth (l : List Char) : Option (List Char) :=
  let ws := l.takeWhile isSpaceC
  if ws = [] then none
  else
    let r1 := l.dropWhile isSpaceC
    let dr := r1.takeWhile isDigitC
    if dr.length = 1 ∨ dr.length = 2 then
      match r1.dropWhile isDigitC with
      | ',' :: r2 =>
        let ws2 := r2.takeWhile isSpaceC
        match r2.dropWhile isSpaceC with
        | a :: b :: c :: d :: _ =>
          if isDigitC a && isDigitC b && isDigitC c && isDigitC d then
            some (ws ++ dr ++ ',' :: ws2 ++ [a, b, c, d])
          else none
        | _ => none
      | _ => none
    else none

/-- The alternation `(Jan(?:uary)?|...|Dec(?:ember)?)` of the fallback
search: 3-letter stem and optional greedy tail. -/
def monthAlts : List (List Char × List Char) :=
  [("Jan".toList, "uary".toList), ("Feb".toList, "ruary".toList),
   ("Mar".toList, "ch".toList), ("Apr".toList, "il".toList),
   ("May".toList, [] ), ("Jun".toList, "e".toList),
   ("Jul".toList, "y".toList), ("Aug".toList, "ust".toList),
   ("Sep".toList, "tember".toList), ("Oct".toList, "ober".toList),
   ("Nov".toList, "ember".toList), ("Dec".toList, "ember".toList)]

/-- Try the month-token pattern anchored at this position: each alternative
first with its greedy optional tail, then the bare stem, then the next
alternative. -/
def tryMonthAlts : List (List Char × List Char) → List Char → Option (List Char)
  | [], _ => none
  | (b, e) :: alts, l =>
    match dropLead (b ++ e) l with
    | some r =>
      match contMonth r with
      | some cont => some (b ++ e ++ cont)
      | none =>
        match dropLead b l with
        | some r2 =>
          match contMonth r2 with
          | some cont2 => some (b ++ cont2)
          | none => tryMonthAlts alts l
        | none => tryMonthAlts alts l
    | none =>
      match dropLead b l with
      | some r2 =>
        match contMonth r2 with
        | some cont2 => some (b ++ cont2)
        | none => tryMonthAlts alts l
      | none => tryMonthAlts alts l

def tryMonthAt (l : List Char) : Option (List Char) := tryMonthAlts monthAlts l

/-- `re.search` for the month-token pattern: leftmost match wins. -/
def searchMonthGroup : List Char → Option (List Char)
  | [] => none
  | c :: rest =>
    match tryMonthAt (c :: rest) with
    | some g => some g
    | none => searchMonthGroup rest

/-- Try `\d{1,2}/\d{1,2}/\d{4}` anchored at this position. -/
def trySlashAt (l : List Char) : Option (List Char) :=
  let d1 := l.takeWhile isDigitC
  if d1.length = 1 ∨ d1.length = 2 then
    match l.dropWhile isDigitC with
    | '/' :: r1 =>
      let d2 := r1.takeWhile isDigitC
      if d2.length = 1 ∨ d2.length = 2 then
        match r1.dropWhile isDigitC with
        | '/' :: r2 =>
          match r2 with
          | a :: b :: c :: d :: _ =>
            if isDigitC a && isDigitC b && isDigitC c && isDigitC d then
              some (d1 ++ '/' :: d2 ++ '/' :: [a, b, c, d])
            else none
          | _ => none
        | _ => none
      else none
    | _ => none
  else none

/-- `re.search(r'\d{1,2}/\d{1,2}/\d{4}', s)`: leftmost match. -/
def searchSlashGroup : List Char → Option (List Char)
  | [] => none
  | c :: rest =>
    match trySlashAt (c :: rest) with
    | some g => some g
    | none => searchSlashGroup rest

/-! ## `_parse_one_date_token` (source lines 86-110) -/

/-- Lines 95-103: search for an embedded `Month D, YYYY` token and feed the
matched text to strptime with the full then the abbreviated month format. -/
def monthSearchParse (s : List Char) : Option Date :=
  match searchMonthGroup s with
  | some g =>
    (match strptimeFull g with
     | some d => some d
     | none => strptimeAbbr g)
  | none => none

/-- Lines 104-109: search for an embedded `M/D/YYYY` token; if one is found
but does not survive strptime, the function returns `None` outright. -/
def slashSearchParse (s : List Char) : Option Date :=
  match searchSlashGroup s with
  | some g => strptimeSlash g
  | none => none

/-- The cascade of lines 90-110 on the already-stripped string. -/
def pyParseStripped (s : List Char) : Option Date :=
  match strptimeFull s with
  | some d => some d
  | none =>
    match strptimeAbbr s with
    | some d => some d
    | none =>
      match strptimeSlash s with
      | some d => some d
      | none =>
        match monthSearchParse s with
        | some d => some d
        | none => slashSearchParse s

/-- The stripping of lines 87-89. -/
def strippedTok (l : List Char) : List Char :=
  dropOrdinals (dropWeekday (pyStrip l))

def parseTokL (l : List Char) : Option Date := pyParseStripped (strippedTok l)

def _parse_one_date_token (tok : String) : Option Date := parseTokL tok.toList

/-! ## split_bor_dates_to_open_close (source lines 112-125) -/

/-- `f"{d.month}/{d.day}/{d.year}"`. -/
def _format_short (dt : Date) : String :=
  natStr dt.month ++ "/" ++ natStr dt.day ++ "/" ++ natStr dt.year

def optShort : Option Date → String
  | some dt => _format_short dt
  | none => ""

def splitDashAux : List Char → List Char → List (List Char)
  | acc, [] => [acc.reverse]
  | acc, c :: rest =>
    if c = '-' then acc.reverse :: splitDashAux [] rest
    else splitDashAux (c :: acc) rest

/-- Python `txt.split("-")`. -/
def splitDash (l : List Char) : List (List Char) := splitDashAux [] l

/-- `txt = str(bor_text).replace("–", "-").replace("—", "-")`. -/
def normalizeDashes (l : List Char) : List Char :=
  l.map (fun c => if c == '–' then '-' else if c == '—' then '-' else c)

/-- `[p for p in txt.split("-") if p.strip()]`. -/
def borSegments (l : List Char) : List (List Char) :=
  (splitDash (normalizeDashes l)).filter (fun p => !(pyStrip p).isEmpty)

def split_bor_dates_to_open_close (bor_text : String) : String × String :=
  let sl := bor_text.toList
  if sl = [] ∨ pyStrip sl = [] ∨ (pyStrip sl).map toUpperC = "TBD".toList then
    ("", "")
  else
    let txt := normalizeDashes sl
    match borSegments sl with
    | p0 :: p1 :: _ => (optShort (parseTokL p0), optShort (parseTokL p1))
    | _ =>
      match parseTokL txt with
      | some d => (_format_short d, _format_short d)
      | none => ("", "")

/-! ## calc_bor_evidence_deadline (source lines 127-134) -/

def calc_bor_evidence_deadline (close_str : String) : String :=
  if close_str = "" then ""
  else
    match strptimeSlash close_str.toList with
    | none => ""
    | some d =>
      match addDaysChecked d 10 with
      | none => ""
      | some d2 => _format_short d2

/-! ## `_get_bor_range` (source lines 48-81) and per-entity assembly -/

/-- `re.findall` for the combined `(long|short)` date-token pattern of
lines 64-68: leftmost, non-overlapping, the long (month-name) alternative
tried first at each position.  Fuel-structured; matches are nonempty so
`fuel = length` suffices. -/
def findAllTokensF : Nat → List Char → List (List Char)
  | 0, _ => []
  | _ + 1, [] => []
  | fuel + 1, c :: rest =>
    match tryMonthAt (c :: rest) with
    | some g => g :: findAllTokensF fuel (rest.drop (g.length - 1))
    | none =>
      match trySlashAt (c :: rest) with
      | some g => g :: findAllTokensF fuel (rest.drop (g.length - 1))
      | none => findAllTokensF fuel rest

def findAllTokens (l : List Char) : List (List Char) := findAllTokensF l.length l

/-- The BOR field of one raw HTML row, as the two selector probes and the
flattened-text fallback expose it: the `<time>` texts under the
`...-appeal-dat` selector, those under `...-appeal-dates`, and the field's
flattened text (`none` when neither selector matches an element). -/
structure BorIn where
  timesA : List String
  timesB : List String
  fldText : Option String
deriving DecidableEq, Repr

def format_dateL (l : List Char) : String := format_date (String.mk l)

/-- Lines 48-81: prefer the `<time>` tags of the first selector, then the
second; two or more render as "open - close", one renders alone; with no
tags, regex-scan the flattened text; no field or no match gives "TBD". -/
def getBorRange (b : BorIn) : String :=
  let times := if b.timesA ≠ [] then b.timesA else b.timesB
  match times with
  | t1 :: t2 :: _ => format_date t1 ++ " - " ++ format_date t2
  | [t1] => format_date t1
  | [] =>
    match b.fldText with
    | none => "TBD"
    | some txt =>
      match findAllTokens txt.toList with
      | f1 :: f2 :: _ => format_dateL f1 ++ " - " ++ format_dateL f2
      | [f1] => format_dateL f1
      | [] => "TBD"

/-- One raw calendar entity as the HTML selectors expose it to the core:
each `<time>` text when the element is present (the collector feeds
`el.get_text(strip=True)` to `format_date`), and the BOR field. -/
structure EntityIn where
  mailed : Option String
  deadline : Option String
  aRollCertified : Option String
  aRollPublished : Option String
  bor : BorIn
deriving DecidableEq, Repr

/-- One normalized output record (the dict built at lines 187-198; the
"Last Updated" timestamp is ambient-clock I/O and out of scope). -/
structure RecordOut where
  township : String
  mailedDate : String
  deadlineDate : String
  aRollCertified : String
  aRollPublished : String
  borOpenFmt : String
  borCloseFmt : String
  borEvidenceFmt : String
  published : String
deriving DecidableEq, Repr

/-- Lines 172-198: derive every field of one record from the raw entity. -/
def assembleEntity (township : String) (e : EntityIn) : RecordOut :=
  let mailed_date := getTime e.mailed
  let deadline_date := getTime e.deadline
  let a_roll_certified := getTime e.aRollCertified
  let a_roll_published := getTime e.aRollPublished
  let bor_dates := getBorRange e.bor
  let oc := split_bor_dates_to_open_close bor_dates
  let bor_evidence_deadline := calc_bor_evidence_deadline oc.2
  { township := township
    mailedDate := mailed_date
    deadlineDate := deadline_date
    aRollCertified := a_roll_certified
    aRollPublished := a_roll_published
    borOpenFmt := if oc.1 ≠ "" then format_date oc.1 else ""
    borCloseFmt := if oc.2 ≠ "" then format_date oc.2 else ""
    borEvidenceFmt :=
      if bor_evidence_deadline ≠ "" then format_date bor_evidence_deadline else ""
    published :=
      if mailed_date ≠ "TBD" ∧ deadline_date ≠ "TBD" then "Yes" else "No" }

/-! ## Helper lemmas -/

theorem ordSuffix_eq (n : Nat) : ordSuffixCode n = ordSuffixSpec n := by
  have h : (11 ≤ n ∧ n ≤ 13) ↔ (n = 11 ∨ n = 12 ∨ n = 13) := by omega
  simp only [ordSuffixCode, ordSuffixSpec, h]

theorem weekdayName_len (n : Nat) : 6 ≤ (weekdayName n).length := by
  rcases n with _ | _ | _ | _ | _ | _ | m
  · decide
  · decide
  · decide
  · decide
  · decide
  · decide
  · show 6 ≤ ("Sunday" : String).length
    decide

theorem renderDate_ne_TBD (dt : Date) : renderDate dt ≠ "TBD" := by
  intro h
  have hlen := congrArg String.length h
  simp only [renderDate, String.length_append] at hlen
  have := weekdayName_len (dayOfWeekIdx dt)
  have htbd : ("TBD" : String).length = 3 := by decide
  omega

theorem addDaysChecked_eq_spec (n : Nat) :
    ∀ dt : Date, (∀ k, k < n → addDaysSpec dt k ≠ ⟨9999, 12, 31⟩) →
      addDaysChecked dt n = some (addDaysSpec dt n) := by
  induction n with
  | zero => intro dt _; rfl
  | succ m ih =>
    intro dt h
    have h0 : ¬(dt.year = 9999 ∧ dt.month = 12 ∧ dt.day = 31) := by
      intro ⟨h1, h2, h3⟩
      have := h 0 (Nat.succ_pos m)
      apply this
      cases dt
      simp_all [addDaysSpec]
    show addDaysChecked dt (m + 1) = _
    rw [addDaysChecked, if_neg h0]
    have hstep : addDaysSpec dt (m + 1) = addDaysSpec (nextDay dt) m := rfl
    rw [hstep]
    exact ih (nextDay dt) fun k hk => h (k + 1) (by omega)

theorem addDaysChecked_none (n : Nat) :
    ∀ (dt : Date) (k : Nat), k < n → addDaysSpec dt k = ⟨9999, 12, 31⟩ →
      addDaysChecked dt n = none := by
  induction n with
  | zero => intro dt k hk _; exact absurd hk (Nat.not_lt_zero k)
  | succ m ih =>
    intro dt k hk hcap
    by_cases hdt : dt.year = 9999 ∧ dt.month = 12 ∧ dt.day = 31
    · rw [addDaysChecked, if_pos hdt]
    · rw [addDaysChecked, if_neg hdt]
      cases k with
      | zero =>
        exfalso
        apply hdt
        have : dt = ⟨9999, 12, 31⟩ := hcap
        rw [this]
        exact ⟨rfl, rfl, rfl⟩
      | succ j => exact ih (nextDay dt) j (by omega) hcap

/-! ## C4 -/

/-- C4: `determine_tri_label` classifies by first-match-wins order —
"Yes" when the current year is a reassessment year, "No - 2nd Year of Tri"
when last year was, "No - 3rd Year of Tri" when the year before was, else
"No"; the result is always one of exactly these four strings and "Yes"
takes precedence. -/
theorem determine_tri_label_spec (years : List Int) (current : Int) :
    ((determine_tri_label years current = "Yes" ↔ current ∈ years) ∧
    (determine_tri_label years current = "No - 2nd Year of Tri" ↔
      current ∉ years ∧ current - 1 ∈ years) ∧
    (determine_tri_label years current = "No - 3rd Year of Tri" ↔
      current ∉ years ∧ current - 1 ∉ years ∧ current - 2 ∈ years) ∧
    (determine_tri_label years current = "No" ↔
      current ∉ years ∧ current - 1 ∉ years ∧ current - 2 ∉ years) ∧
    (determine_tri_label years current = "Yes" ∨
      determine_tri_label years current = "No - 2nd Year of Tri" ∨
      determine_tri_label years current = "No - 3rd Year of Tri" ∨
      determine_tri_label years current = "No")) ∧
    determine_tri_label [2024] 2024 = "Yes" ∧
    determine_tri_label [2024] 2025 = "No - 2nd Year of Tri" ∧
    determine_tri_label [2024] 2026 = "No - 3rd Year of Tri" ∧
    determine_tri_label [2024] 2027 = "No" := by
  have e12 : ("Yes" : String) ≠ "No - 2nd Year of Tri" := by decide
  have e13 : ("Yes" : String) ≠ "No - 3rd Year of Tri" := by decide
  have e14 : ("Yes" : String) ≠ "No" := by decide
  have e23 : ("No - 2nd Year of Tri" : String) ≠ "No - 3rd Year of Tri" := by decide
  have e24 : ("No - 2nd Year of Tri" : String) ≠ "No" := by decide
  have e34 : ("No - 3rd Year of Tri" : String) ≠ "No" := by decide
  refine ⟨?_, by decide, by decide, by decide, by decide⟩
  unfold determine_tri_label
  split_ifs with h1 h2 h3 <;>
    exact ⟨by simp_all, by simp_all, by simp_all, by simp_all, by simp_all⟩

/-! ## C5 -/

/-- C5: grouping the deduplicated output by township — a township appearing
at most once in the input passes through unchanged, while a township
appearing more than once keeps exactly its rows whose `Published?` flag is
"Yes" case-insensitively (so a duplicated township with zero "Yes" rows is
absent from the output entirely). -/
theorem dedupeRows_spec (rows : List Row) (t : String) :
    (dedupeRows rows).filter (fun r => r.township == t) =
      if countTownship rows t ≤ 1 then rows.filter (fun r => r.township == t)
      else (rows.filter (fun r => r.township == t)).filter
        (fun r => pyLower r.published == "yes") := by
  unfold dedupeRows
  rw [List.filter_append, List.filter_filter, List.filter_filter,
    List.filter_filter]
  by_cases h : countTownship rows t ≤ 1
  · rw [if_pos h]
    have h1 : rows.filter
        (fun r => (r.township == t) && !decide (1 < countTownship rows r.township)) =
        rows.filter (fun r => r.township == t) := by
      apply List.filter_congr
      intro r _
      by_cases ht : r.township = t
      · rw [ht]
        have : ¬ 1 < countTownship rows t := Nat.not_lt.mpr h
        simp [this]
      · simp [ht]
    have h2 : rows.filter
        (fun r => (r.township == t) && (pyLower r.published == "yes") &&
          decide (1 < countTownship rows r.township)) = [] := by
      apply List.filter_eq_nil_iff.mpr
      intro r _
      by_cases ht : r.township = t
      · rw [ht]
        have : ¬ 1 < countTownship rows t := Nat.not_lt.mpr h
        simp [this]
      · simp [ht]
    rw [h1, h2, List.append_nil]
  · rw [if_neg h, List.filter_filter]
    have hlt : 1 < countTownship rows t := Nat.lt_of_not_le h
    have h1 : rows.filter
        (fun r => (r.township == t) && !decide (1 < countTownship rows r.township)) = [] := by
      apply List.filter_eq_nil_iff.mpr
      intro r _
      by_cases ht : r.township = t
      · rw [ht]
        simp [hlt]
      · simp [ht]
    have h2 : rows.filter
        (fun r => (r.township == t) && (pyLower r.published == "yes") &&
          decide (1 < countTownship rows r.township)) =
        rows.filter (fun r => (pyLower r.published == "yes") && (r.township == t)) := by
      apply List.filter_congr
      intro r _
      by_cases ht : r.township = t
      · rw [ht]
        have hd : decide (1 < countTownship rows t) = true := decide_eq_true hlt
        rw [hd, beq_self_eq_true]
        rfl
      · have hb : (r.township == t) = false := beq_eq_false_iff_ne.mpr ht
        rw [hb]
        simp
    rw [h1, h2, List.nil_append]

/-! ## C6 -/

/-- C6: for every present CanonicalDate, the rendering is
"<full weekday>, <full month> <day><ordinal suffix>, <year>" where the
ordinal suffix follows the specification rule — "th" for days 11, 12, 13,
else "st"/"nd"/"rd" for day mod 10 = 1/2/3, else "th" (so 1→"st", 2→"nd",
3→"rd", 4→"th", 11→"th", 12→"th", 13→"th", 21→"st", 22→"nd", 23→"rd"). -/
theorem renderDate_spec (dt : Date) :
    renderDate dt =
      weekdayName (dayOfWeekIdx dt) ++ ", " ++ monthName dt.month ++ " " ++
        natStr dt.day ++ ordSuffixSpec dt.day ++ ", " ++ natStr dt.year ∧
    ordSuffixSpec 1 = "st" ∧ ordSuffixSpec 2 = "nd" ∧ ordSuffixSpec 3 = "rd" ∧
    ordSuffixSpec 4 = "th" ∧ ordSuffixSpec 11 = "th" ∧ ordSuffixSpec 12 = "th" ∧
    ordSuffixSpec 13 = "th" ∧ ordSuffixSpec 21 = "st" ∧ ordSuffixSpec 22 = "nd" ∧
    ordSuffixSpec 23 = "rd" := by
  refine ⟨?_, by decide, by decide, by decide, by decide, by decide, by decide,
    by decide, by decide, by decide, by decide⟩
  rw [renderDate, ordSuffix_eq]

/-! ## C7 -/

/-- C7: the rendering entry point never fails — for every input (an absent
element or the text of a present one) it returns a string, and that string
is the literal "TBD" exactly when the input is absent or its text does not
parse as an M/D/YYYY date; an input that parses as a valid date never
produces "TBD". -/
theorem getTime_TBD_iff (o : Option String) :
    getTime o = "TBD" ↔
      (o = none ∨ ∃ s, o = some s ∧ strptimeSlash s.toList = none) := by
  cases o with
  | none => simp [getTime]
  | some s =>
    simp only [getTime, format_date, String.toList]
    cases h : strptimeSlash s.data with
    | none => simp [h]
    | some dt => simp [h, renderDate_ne_TBD dt]

/-! ## C3 -/

/-- C3 counterexample: "12/25/9999" parses as an M/D/YYYY date, and the
claimed result — the close date plus 10 calendar days, 1/4/10000, in short
form — is not what the code returns: `datetime.date` overflows past year
9999, the `except` clause catches the `OverflowError`, and the function
returns the empty string. -/
theorem calc_bor_evidence_deadline_overflow :
    strptimeSlash ("12/25/9999".toList) = some ⟨9999, 12, 25⟩ ∧
    addDaysSpec ⟨9999, 12, 25⟩ 10 = ⟨10000, 1, 4⟩ ∧
    _format_short (addDaysSpec ⟨9999, 12, 25⟩ 10) = "1/4/10000" ∧
    calc_bor_evidence_deadline "12/25/9999" = "" ∧
    ("" : String) ≠ "1/4/10000" := by
  refine ⟨by decide, by decide, by decide, ?_, by decide⟩
  decide

/-- C3 as amended: empty or unparseable input gives the empty string;
a close date that parses gives the close plus 10 calendar days in M/D/YYYY
short form (pure calendar arithmetic with month and year rollover) —
except that when stepping 10 days would pass 12/31/9999, the upper bound of
`datetime.date`, the arithmetic overflows and the empty string is returned. -/
theorem calc_bor_evidence_deadline_spec (s : String) :
    (s = "" → calc_bor_evidence_deadline s = "") ∧
    (strptimeSlash s.toList = none → calc_bor_evidence_deadline s = "") ∧
    (∀ dt, strptimeSlash s.toList = some dt →
      ((∀ k, k < 10 → addDaysSpec dt k ≠ ⟨9999, 12, 31⟩) →
        calc_bor_evidence_deadline s = _format_short (addDaysSpec dt 10)) ∧
      ((∃ k, k < 10 ∧ addDaysSpec dt k = ⟨9999, 12, 31⟩) →
        calc_bor_evidence_deadline s = "")) ∧
    calc_bor_evidence_deadline "1/1/2025" = "1/11/2025" := by
  refine ⟨?_, ?_, ?_, by decide⟩
  · intro hs
    rw [calc_bor_evidence_deadline, if_pos hs]
  · intro hp
    by_cases hs : s = ""
    · rw [calc_bor_evidence_deadline, if_pos hs]
    · rw [calc_bor_evidence_deadline, if_neg hs, hp]
  · intro dt hp
    have hs : s ≠ "" := by
      intro he
      rw [he] at hp
      exact Option.noConfusion ((rfl : strptimeSlash "".toList = none) ▸ hp)
    constructor
    · intro hno
      rw [calc_bor_evidence_deadline, if_neg hs, hp]
      show (match addDaysChecked dt 10 with
        | none => ""
        | some d2 => _format_short d2) = _
      rw [addDaysChecked_eq_spec 10 dt hno]
    · intro ⟨k, hk, hcap⟩
      rw [calc_bor_evidence_deadline, if_neg hs, hp]
      show (match addDaysChecked dt 10 with
        | none => ""
        | some d2 => _format_short d2) = _
      rw [addDaysChecked_none 10 dt k hk hcap]

/-! ## C9 -/

/-- The entity whose date fields are all absent. -/
def absentEntity : EntityIn := ⟨none, none, none, none, ⟨[], [], none⟩⟩

/-- C9 counterexample: for the entity with every date field absent the
published flag is "No" and the four directly extracted DisplayDates are
"TBD", but the claim's "every DisplayDate field equal to TBD" fails — the
three derived BOR display fields are the empty string, not "TBD". -/
theorem assembleEntity_absent_value :
    assembleEntity "Township" absentEntity =
      ⟨"Township", "TBD", "TBD", "TBD", "TBD", "", "", "", "No"⟩ ∧
    (assembleEntity "Township" absentEntity).borOpenFmt = "" ∧
    ("" : String) ≠ "TBD" := by
  refine ⟨?_, ?_, by decide⟩ <;> decide

/-- C9 as amended: for every assembled entity the published flag is "Yes"
iff both the mailed-date and appeal-deadline DisplayDates are not "TBD"
(and "No" otherwise); an entity with all date fields absent gets
published = "No", "TBD" in the four directly extracted DisplayDate fields,
and empty strings (not "TBD") in the three BOR-derived display fields. -/
theorem assembleEntity_published_spec (t : String) (e : EntityIn) :
    ((assembleEntity t e).published = "Yes" ↔
      (assembleEntity t e).mailedDate ≠ "TBD" ∧
      (assembleEntity t e).deadlineDate ≠ "TBD") ∧
    ((assembleEntity t e).published = "Yes" ∨
      (assembleEntity t e).published = "No") ∧
    assembleEntity t absentEntity =
      ⟨t, "TBD", "TBD", "TBD", "TBD", "", "", "", "No"⟩ := by
  have hYN : ("Yes" : String) ≠ "No" := by decide
  refine ⟨?_, ?_, ?_⟩
  · show (if getTime e.mailed ≠ "TBD" ∧ getTime e.deadline ≠ "TBD"
        then "Yes" else "No") = "Yes" ↔ _
    by_cases hc : getTime e.mailed ≠ "TBD" ∧ getTime e.deadline ≠ "TBD"
    · rw [if_pos hc]
      exact ⟨fun _ => hc, fun _ => rfl⟩
    · rw [if_neg hc]
      exact ⟨fun hno => absurd hno.symm hYN, fun hcc => absurd hcc hc⟩
  · show (if getTime e.mailed ≠ "TBD" ∧ getTime e.deadline ≠ "TBD"
        then "Yes" else "No") = "Yes" ∨
      (if getTime e.mailed ≠ "TBD" ∧ getTime e.deadline ≠ "TBD"
        then "Yes" else "No") = "No"
    by_cases hc : getTime e.mailed ≠ "TBD" ∧ getTime e.deadline ≠ "TBD"
    · exact Or.inl (by rw [if_pos hc])
    · exact Or.inr (by rw [if_neg hc])
  · rfl

/-! ## C1 -/

theorem mkDate_some_valid {y m d : Nat} {dt : Date}
    (h : mkDate y m d = some dt) : validDate dt.year dt.month dt.day := by
  unfold mkDate at h
  split at h
  · cases h
    assumption
  · cases h

theorem valid_of_bind_mkDate {o : Option (Nat × Nat × Nat)} {dt : Date}
    (h : (o.bind fun x => mkDate x.2.2 x.1 x.2.1) = some dt) :
    validDate dt.year dt.month dt.day := by
  cases o with
  | none => cases h
  | some x => exact mkDate_some_valid h

theorem strptimeFull_valid {l : List Char} {dt : Date}
    (h : strptimeFull l = some dt) : validDate dt.year dt.month dt.day :=
  valid_of_bind_mkDate h

theorem strptimeAbbr_valid {l : List Char} {dt : Date}
    (h : strptimeAbbr l = some dt) : validDate dt.year dt.month dt.day :=
  valid_of_bind_mkDate h

theorem strptimeSlash_valid {l : List Char} {dt : Date}
    (h : strptimeSlash l = some dt) : validDate dt.year dt.month dt.day :=
  valid_of_bind_mkDate h

theorem monthSearchParse_valid {l : List Char} {dt : Date}
    (h : monthSearchParse l = some dt) : validDate dt.year dt.month dt.day := by
  unfold monthSearchParse at h
  split at h
  · split at h
    · rename_i d0 heq
      cases h
      exact strptimeFull_valid heq
    · exact strptimeAbbr_valid h
  · cases h

theorem slashSearchParse_valid {l : List Char} {dt : Date}
    (h : slashSearchParse l = some dt) : validDate dt.year dt.month dt.day := by
  unfold slashSearchParse at h
  split at h
  · exact strptimeSlash_valid h
  · cases h

theorem pyParseStripped_valid {l : List Char} {dt : Date}
    (h : pyParseStripped l = some dt) : validDate dt.year dt.month dt.day := by
  unfold pyParseStripped at h
  split at h
  · rename_i d0 heq
    cases h
    exact strptimeFull_valid heq
  · split at h
    · rename_i d0 heq
      cases h
      exact strptimeAbbr_valid heq
    · split at h
      · rename_i d0 heq
        cases h
        exact strptimeSlash_valid heq
      · split at h
        · rename_i d0 heq
          cases h
          exact monthSearchParse_valid heq
        · exact slashSearchParse_valid h

/-- C1 counterexample: after stripping, "x 1/2/2025" matches none of the
three literal shapes, yet the parser does not return absent — the
embedded-token regex fallback of lines 104-109 finds "1/2/2025" and the
function returns January 2, 2025. -/
theorem parse_one_date_token_fallback_cex :
    strptimeFull (strippedTok "x 1/2/2025".toList) = none ∧
    strptimeAbbr (strippedTok "x 1/2/2025".toList) = none ∧
    strptimeSlash (strippedTok "x 1/2/2025".toList) = none ∧
    _parse_one_date_token "x 1/2/2025" = some ⟨2025, 1, 2⟩ := by
  refine ⟨by decide, by decide, by decide, by decide⟩

/-- C1 as amended: `_parse_one_date_token` first strips a leading
letters-and-comma prefix and ordinal suffixes, then tries the three literal
shapes (full month name, abbreviated month name, M/D/YYYY, month names
case-insensitive); when none matches it additionally falls back to regex
searches for an embedded `Month D, YYYY` or `M/D/YYYY` token.  It returns
absent exactly when the three shapes and both fallbacks all fail, and any
date it returns is a valid calendar date (never invalid or wrapped). -/
theorem parse_one_date_token_spec (s : String) :
    (_parse_one_date_token s = none ↔
      (strptimeFull (strippedTok s.toList) = none ∧
       strptimeAbbr (strippedTok s.toList) = none ∧
       strptimeSlash (strippedTok s.toList) = none ∧
       monthSearchParse (strippedTok s.toList) = none ∧
       slashSearchParse (strippedTok s.toList) = none)) ∧
    (∀ dt, _parse_one_date_token s = some dt →
      validDate dt.year dt.month dt.day) := by
  constructor
  · unfold _parse_one_date_token parseTokL pyParseStripped
    rcases h1 : strptimeFull (strippedTok s.toList) with _ | d1
    · rcases h2 : strptimeAbbr (strippedTok s.toList) with _ | d2
      · rcases h3 : strptimeSlash (strippedTok s.toList) with _ | d3
        · rcases h4 : monthSearchParse (strippedTok s.toList) with _ | d4
          · rcases h5 : slashSearchParse (strippedTok s.toList) with _ | d5
            · simp [h1, h2, h3, h4, h5]
            · simp [h1, h2, h3, h4, h5]
          · simp [h1, h2, h3, h4]
        · simp [h1, h2, h3]
      · simp [h1, h2]
    · simp [h1]
  · intro dt h
    exact pyParseStripped_valid h

/-! ## C2 and the asymmetric edge case -/

theorem pyStrip_nil : pyStrip [] = [] := rfl

theorem split_bor_blank_cond (s : String)
    (hb : ¬(pyStrip s.toList = [] ∨ (pyStrip s.toList).map toUpperC = "TBD".toList)) :
    ¬(s.toList = [] ∨ pyStrip s.toList = [] ∨
      (pyStrip s.toList).map toUpperC = "TBD".toList) := by
  rintro (h | h | h)
  · exact hb (Or.inl (by rw [h]; rfl))
  · exact hb (Or.inl h)
  · exact hb (Or.inr h)

theorem split_bor_two_seg (s : String) (p0 p1 : List Char) (rest : List (List Char))
    (hb : ¬(pyStrip s.toList = [] ∨ (pyStrip s.toList).map toUpperC = "TBD".toList))
    (hseg : borSegments s.toList = p0 :: p1 :: rest) :
    split_bor_dates_to_open_close s = (optShort (parseTokL p0), optShort (parseTokL p1)) := by
  unfold split_bor_dates_to_open_close
  rw [if_neg (split_bor_blank_cond s hb), hseg]

theorem split_bor_low_seg (s : String) (segs : List (List Char))
    (hb : ¬(pyStrip s.toList = [] ∨ (pyStrip s.toList).map toUpperC = "TBD".toList))
    (hseg : borSegments s.toList = segs) (hlen : segs.length ≤ 1) :
    split_bor_dates_to_open_close s =
      (match parseTokL (normalizeDashes s.toList) with
       | some d => (_format_short d, _format_short d)
       | none => ("", "")) := by
  unfold split_bor_dates_to_open_close
  rw [if_neg (split_bor_blank_cond s hb), hseg]
  match segs, hlen with
  | [], _ => rfl
  | [p0], _ => rfl

/-- C2: splitting a BOR range display string — blank or (case-insensitive)
"TBD" input gives ("", ""); otherwise the text, en- and em-dashes
normalized to hyphens, is split on hyphens into non-blank segments; with two
or more segments the first two are parsed and rendered in M/D/YYYY short
form as (open, close); with at most one segment the parse of the whole
normalized text is duplicated into both fields; and when nothing parses the
result is ("", ""). -/
theorem split_bor_dates_spec (s : String) :
    (pyStrip s.toList = [] ∨ (pyStrip s.toList).map toUpperC = "TBD".toList →
      split_bor_dates_to_open_close s = ("", "")) ∧
    (¬(pyStrip s.toList = [] ∨ (pyStrip s.toList).map toUpperC = "TBD".toList) →
      (∀ p0 p1 rest, borSegments s.toList = p0 :: p1 :: rest →
        (∀ d1 d2, parseTokL p0 = some d1 → parseTokL p1 = some d2 →
          split_bor_dates_to_open_close s = (_format_short d1, _format_short d2)) ∧
        (parseTokL p0 = none → parseTokL p1 = none →
          split_bor_dates_to_open_close s = ("", ""))) ∧
      (∀ segs, borSegments s.toList = segs → segs.length ≤ 1 →
        (∀ d, parseTokL (normalizeDashes s.toList) = some d →
          split_bor_dates_to_open_close s = (_format_short d, _format_short d)) ∧
        (parseTokL (normalizeDashes s.toList) = none →
          split_bor_dates_to_open_close s = ("", "")))) ∧
    split_bor_dates_to_open_close
        "Monday, June 2nd, 2025 - Friday, August 1st, 2025" =
      ("6/2/2025", "8/1/2025") := by
  refine ⟨?_, ?_, by decide⟩
  · intro hb
    unfold split_bor_dates_to_open_close
    rw [if_pos (Or.inr hb)]
  · intro hb
    constructor
    · intro p0 p1 rest hseg
      constructor
      · intro d1 d2 h1 h2
        rw [split_bor_two_seg s p0 p1 rest hb hseg, h1, h2]
        rfl
      · intro h1 h2
        rw [split_bor_two_seg s p0 p1 rest hb hseg, h1, h2]
        rfl
    · intro segs hseg hlen
      constructor
      · intro d hd
        rw [split_bor_low_seg s segs hb hseg hlen, hd]
      · intro hd
        rw [split_bor_low_seg s segs hb hseg hlen, hd]

/-- C10: with two or more non-blank hyphen-separated segments, each of the
first two is parsed independently, so when exactly one of them parses the
result is asymmetric — the parsed side in M/D/YYYY short form and the other
side the empty string — and segments beyond the first two never influence
the result. -/
theorem split_bor_asym_spec (s : String) (p0 p1 : List Char)
    (rest : List (List Char))
    (hb : ¬(pyStrip s.toList = [] ∨ (pyStrip s.toList).map toUpperC = "TBD".toList))
    (hseg : borSegments s.toList = p0 :: p1 :: rest) :
    (∀ d, parseTokL p0 = some d → parseTokL p1 = none →
      split_bor_dates_to_open_close s = (_format_short d, "")) ∧
    (∀ d, parseTokL p0 = none → parseTokL p1 = some d →
      split_bor_dates_to_open_close s = ("", _format_short d)) ∧
    split_bor_dates_to_open_close s =
      (optShort (parseTokL p0), optShort (parseTokL p1)) := by
  refine ⟨?_, ?_, split_bor_two_seg s p0 p1 rest hb hseg⟩
  · intro d h1 h2
    rw [split_bor_two_seg s p0 p1 rest hb hseg, h1, h2]
    rfl
  · intro d h1 h2
    rw [split_bor_two_seg s p0 p1 rest hb hseg, h1, h2]
    rfl

/-- C10 witness: "June 2, 2025 - banana" has two non-blank segments, only
the first parses, and the split is the asymmetric ("6/2/2025", ""). -/
theorem split_bor_asym_witness :
    split_bor_dates_to_open_close "June 2, 2025 - banana" = ("6/2/2025", "") :=
  (split_bor_asym_spec "June 2, 2025 - banana" "June 2, 2025 ".toList
    " banana".toList [] (by decide) (by decide)).1 ⟨2025, 6, 2⟩
    (by decide) (by decide)

/-! ## C8: digit-character and decimal-rendering lemmas -/

theorem isDigitC_dc (k : Nat) (hk : k ≤ 9) : isDigitC (digitChar10 k) = true := by
  interval_cases k <;> decide

theorem isSpaceC_dc (k : Nat) (hk : k ≤ 9) : isSpaceC (digitChar10 k) = false := by
  interval_cases k <;> decide

theorem isAlphaC_dc (k : Nat) (hk : k ≤ 9) : isAlphaC (digitChar10 k) = false := by
  interval_cases k <;> decide

theorem charVal_dc (k : Nat) (hk : k ≤ 9) : charVal (digitChar10 k) = k := by
  interval_cases k <;> decide

theorem ordPair_dc_left (k : Nat) (hk : k ≤ 9) (x : Char) :
    isOrdPair (digitChar10 k) x = false := by
  interval_cases k <;> rfl

theorem toLowerC_dc (k : Nat) (hk : k ≤ 9) : toLowerC (digitChar10 k) = digitChar10 k := by
  interval_cases k <;> decide

theorem natDigitsF_lt10 (f n : Nat) (acc : List Char) (h : n < 10) :
    natDigitsF f n acc = digitChar10 n :: acc := by
  cases f with
  | zero => show digitChar10 (n % 10) :: acc = _; rw [Nat.mod_eq_of_lt h]
  | succ f => simp [natDigitsF, h]

theorem natDigits_le9 (n : Nat) (h : n ≤ 9) : natDigits n = [digitChar10 n] :=
  natDigitsF_lt10 n n [] (by omega)

theorem natDigitsF_ge10_step (f n : Nat) (acc : List Char) (h : 10 ≤ n) :
    natDigitsF (f + 1) n acc = natDigitsF f (n / 10) (digitChar10 (n % 10) :: acc) := by
  simp only [natDigitsF, if_neg (by omega : ¬ n < 10)]

theorem natDigits_2digit (n : Nat) (h10 : 10 ≤ n) (h99 : n ≤ 99) :
    natDigits n = [digitChar10 (n / 10), digitChar10 (n % 10)] := by
  obtain ⟨f, hf⟩ : ∃ f, n = f + 1 := ⟨n - 1, by omega⟩
  show natDigitsF n n [] = _
  have step1 : natDigitsF n n [] = natDigitsF f (n / 10) [digitChar10 (n % 10)] := by
    rw [hf]
    exact natDigitsF_ge10_step f (f + 1) [] (by omega)
  rw [step1, natDigitsF_lt10 f (n / 10) _ (by omega)]

theorem natDigits_4digit (y1 y2 y3 y4 : Nat) (hy1 : 1 ≤ y1) (hy19 : y1 ≤ 9)
    (hy2 : y2 ≤ 9) (hy3 : y3 ≤ 9) (hy4 : y4 ≤ 9) :
    natDigits (1000 * y1 + 100 * y2 + 10 * y3 + y4) =
      [digitChar10 y1, digitChar10 y2, digitChar10 y3, digitChar10 y4] := by
  set n := 1000 * y1 + 100 * y2 + 10 * y3 + y4 with hn
  have hb1 : 1000 ≤ n := by omega
  have hb2 : n ≤ 9999 := by omega
  obtain ⟨f1, hf1⟩ : ∃ f1, n = f1 + 1 := ⟨n - 1, by omega⟩
  obtain ⟨f2, hf2⟩ : ∃ f2, f1 = f2 + 1 := ⟨f1 - 1, by omega⟩
  obtain ⟨f3, hf3⟩ : ∃ f3, f2 = f3 + 1 := ⟨f2 - 1, by omega⟩
  have d4 : n % 10 = y4 := by omega
  have d3 : n / 10 % 10 = y3 := by omega
  have d2 : n / 10 / 10 % 10 = y2 := by omega
  have d1 : n / 10 / 10 / 10 = y1 := by omega
  show natDigitsF n n [] = _
  have step1 : natDigitsF n n [] = natDigitsF f1 (n / 10) [digitChar10 (n % 10)] := by
    rw [hf1]
    exact natDigitsF_ge10_step f1 (f1 + 1) [] (by omega)
  have step2 : natDigitsF f1 (n / 10) [digitChar10 (n % 10)] =
      natDigitsF f2 (n / 10 / 10)
        [digitChar10 (n / 10 % 10), digitChar10 (n % 10)] := by
    rw [hf2]
    exact natDigitsF_ge10_step f2 (n / 10) _ (by omega)
  have step3 : natDigitsF f2 (n / 10 / 10)
        [digitChar10 (n / 10 % 10), digitChar10 (n % 10)] =
      natDigitsF f3 (n / 10 / 10 / 10)
        [digitChar10 (n / 10 / 10 % 10), digitChar10 (n / 10 % 10),
         digitChar10 (n % 10)] := by
    rw [hf3]
    exact natDigitsF_ge10_step f3 (n / 10 / 10) _ (by omega)
  rw [step1, step2, step3,
    natDigitsF_lt10 f3 (n / 10 / 10 / 10) _ (by omega), d1, d2, d3, d4]

/-! ## C8: parser component lemmas -/

theorem takeWhile_all_append (p : Char → Bool) (pre : List Char) (x : Char)
    (t : List Char) (hpre : ∀ c ∈ pre, p c = true) (hx : p x = false) :
    (pre ++ x :: t).takeWhile p = pre ∧ (pre ++ x :: t).dropWhile p = x :: t := by
  induction pre with
  | nil => simp [List.takeWhile_cons, List.dropWhile_cons, hx]
  | cons a pre ih =>
    have ha : p a = true := hpre a (List.mem_cons_self a pre)
    have ih' := ih fun c hc => hpre c (List.mem_cons_of_mem a hc)
    simp only [List.cons_append, List.takeWhile_cons, List.dropWhile_cons, ha,
      if_true, ih'.1, ih'.2]
    exact ⟨trivial, trivial⟩

theorem charsVal_one (a : Char) : charsVal [a] = charVal a := by
  simp [charsVal, List.foldl]

theorem charsVal_two (a b : Char) : charsVal [a, b] = 10 * charVal a + charVal b := by
  simp [charsVal, List.foldl]

theorem parseNum2_natDigits (maxv v : Nat) (x : Char) (t : List Char)
    (h1 : 1 ≤ v) (h2 : v ≤ maxv) (h99 : v ≤ 99) (hx : isDigitC x = false) :
    parseNum2 maxv (natDigits v ++ x :: t) = some (v, x :: t) := by
  by_cases hv : v ≤ 9
  · rw [natDigits_le9 v hv]
    have htw := takeWhile_all_append isDigitC [digitChar10 v] x t
      (by intro c hc; rw [List.mem_singleton] at hc; rw [hc]; exact isDigitC_dc v hv) hx
    unfold parseNum2
    rw [htw.1, htw.2, charsVal_one, charVal_dc v hv]
    simp [h1, h2]
  · have h10 : 10 ≤ v := by omega
    rw [natDigits_2digit v h10 h99]
    have ha : v / 10 ≤ 9 := by omega
    have hb : v % 10 ≤ 9 := by omega
    have htw := takeWhile_all_append isDigitC
      [digitChar10 (v / 10), digitChar10 (v % 10)] x t
      (by
        intro c hc
        rcases List.mem_cons.mp hc with h | h
        · rw [h]; exact isDigitC_dc _ ha
        · rw [List.mem_singleton] at h; rw [h]; exact isDigitC_dc _ hb) hx
    unfold parseNum2
    rw [htw.1, htw.2, charsVal_two, charVal_dc _ ha, charVal_dc _ hb]
    have hvv : 10 * (v / 10) + v % 10 = v := by omega
    rw [hvv]
    simp [h1, h2]

theorem parseDayTok_natDigits (d : Nat) (x : Char) (t : List Char)
    (h1 : 1 ≤ d) (h2 : d ≤ 31) (hx : isDigitC x = false) :
    parseDayTok (natDigits d ++ x :: t) = some (d, x :: t) := by
  unfold parseDayTok
  rw [parseNum2_natDigits 31 d x t h1 h2 (by omega) hx]

theorem parseLit_cons (c : Char) (t : List Char) : parseLit c (c :: t) = some t := by
  simp [parseLit]

theorem parseWs1_single (c : Char) (t : List Char) (hc : isSpaceC c = false) :
    parseWs1 (' ' :: c :: t) = some (c :: t) := by
  have htw := takeWhile_all_append isSpaceC [' '] c t
    (by intro a ha; rw [List.mem_singleton] at ha; rw [ha]; rfl) hc
  unfold parseWs1
  have h1 : ((' ' :: c :: t).takeWhile isSpaceC) = [' '] := htw.1
  have h2 : ((' ' :: c :: t).dropWhile isSpaceC) = c :: t := htw.2
  rw [h1, h2]
  simp

theorem parseYearEnd_dc (y1 y2 y3 y4 : Nat) (hy1 : y1 ≤ 9) (hy2 : y2 ≤ 9)
    (hy3 : y3 ≤ 9) (hy4 : y4 ≤ 9) :
    parseYearEnd [digitChar10 y1, digitChar10 y2, digitChar10 y3, digitChar10 y4] =
      some (1000 * y1 + 100 * y2 + 10 * y3 + y4) := by
  show (if (isDigitC (digitChar10 y1) && isDigitC (digitChar10 y2) &&
      isDigitC (digitChar10 y3) && isDigitC (digitChar10 y4)) = true then
      some (charsVal [digitChar10 y1, digitChar10 y2, digitChar10 y3, digitChar10 y4])
    else none) = _
  rw [isDigitC_dc y1 hy1, isDigitC_dc y2 hy2, isDigitC_dc y3 hy3, isDigitC_dc y4 hy4]
  simp only [Bool.and_self, if_true]
  have : charsVal [digitChar10 y1, digitChar10 y2, digitChar10 y3, digitChar10 y4] =
      1000 * y1 + 100 * y2 + 10 * y3 + y4 := by
    simp [charsVal, List.foldl, charVal_dc y1 hy1, charVal_dc y2 hy2,
      charVal_dc y3 hy3, charVal_dc y4 hy4]
    ring
  rw [this]

theorem mkDate_of_valid (y m d : Nat) (h : validDate y m d) :
    mkDate y m d = some ⟨y, m, d⟩ := if_pos h

theorem strptimeSlashNums_digits (m d y1 y2 y3 y4 : Nat) (hm1 : 1 ≤ m)
    (hm : m ≤ 12) (hd1 : 1 ≤ d) (hd : d ≤ 31) (hy1 : y1 ≤ 9)
    (hy2 : y2 ≤ 9) (hy3 : y3 ≤ 9) (hy4 : y4 ≤ 9) :
    strptimeSlashNums (natDigits m ++ '/' :: (natDigits d ++ '/' ::
      [digitChar10 y1, digitChar10 y2, digitChar10 y3, digitChar10 y4])) =
      some (m, d, 1000 * y1 + 100 * y2 + 10 * y3 + y4) := by
  simp only [strptimeSlashNums, Option.bind_eq_bind,
    parseNum2_natDigits 12 m '/' _ hm1 hm (by omega) (by decide),
    Option.some_bind, parseLit_cons,
    parseDayTok_natDigits d '/' _ hd1 hd (by decide),
    parseYearEnd_dc y1 y2 y3 y4 hy1 hy2 hy3 hy4]
  rfl

theorem strptimeSlash_digits (m d y1 y2 y3 y4 : Nat) (hm1 : 1 ≤ m)
    (hm : m ≤ 12) (hd1 : 1 ≤ d) (hy19 : 1 ≤ y1) (hy1 : y1 ≤ 9)
    (hy2 : y2 ≤ 9) (hy3 : y3 ≤ 9) (hy4 : y4 ≤ 9)
    (hd : d ≤ daysInMonth (1000 * y1 + 100 * y2 + 10 * y3 + y4) m) :
    strptimeSlash (natDigits m ++ '/' :: (natDigits d ++ '/' ::
      [digitChar10 y1, digitChar10 y2, digitChar10 y3, digitChar10 y4])) =
      some ⟨1000 * y1 + 100 * y2 + 10 * y3 + y4, m, d⟩ := by
  have hd31 : d ≤ 31 := by
    have : daysInMonth (1000 * y1 + 100 * y2 + 10 * y3 + y4) m ≤ 31 := by
      unfold daysInMonth
      split_ifs <;> omega
    omega
  unfold strptimeSlash
  rw [strptimeSlashNums_digits m d y1 y2 y3 y4 hm1 hm hd1 hd31 hy1 hy2 hy3 hy4]
  exact mkDate_of_valid (1000 * y1 + 100 * y2 + 10 * y3 + y4) m d
    ⟨by omega, by omega, hm1, hm, hd1, hd⟩

theorem ciDropLead_letter_digit (p : Char) (ps : List Char) (k : Nat)
    (hk : k ≤ 9) (hp : isDigitC p = false) (cs : List Char) :
    ciDropLead (p :: ps) (digitChar10 k :: cs) = none := by
  unfold ciDropLead
  rw [toLowerC_dc k hk, if_neg]
  intro he
  rw [← he] at hp
  rw [isDigitC_dc k hk] at hp
  cases hp

theorem matchMonthList_digit_head (names : List (List Char)) (idx k : Nat)
    (hk : k ≤ 9) (cs : List Char)
    (hnames : ∀ nm ∈ names, ∃ p ps, nm = p :: ps ∧ isDigitC p = false) :
    matchMonthList names idx (digitChar10 k :: cs) = none := by
  induction names generalizing idx with
  | nil => rfl
  | cons nm rest ih =>
    obtain ⟨p, ps, hnm, hp⟩ := hnames nm (List.mem_cons_self nm rest)
    unfold matchMonthList
    rw [hnm, ciDropLead_letter_digit p ps k hk hp cs]
    exact ih (idx + 1) fun x hx => hnames x (List.mem_cons_of_mem nm hx)

theorem monthFullNames_letter_head :
    ∀ nm ∈ monthFullNamesL, ∃ p ps, nm = p :: ps ∧ isDigitC p = false := by
  intro nm hnm
  fin_cases hnm <;> exact ⟨_, _, rfl, by decide⟩

theorem monthAbbrNames_letter_head :
    ∀ nm ∈ monthAbbrNamesL, ∃ p ps, nm = p :: ps ∧ isDigitC p = false := by
  intro nm hnm
  fin_cases hnm <;> exact ⟨_, _, rfl, by decide⟩

theorem strptimeMonthNums_digit_head (names : List (List Char)) (k : Nat)
    (hk : k ≤ 9) (cs : List Char)
    (hnames : ∀ nm ∈ names, ∃ p ps, nm = p :: ps ∧ isDigitC p = false) :
    strptimeMonthNums names (digitChar10 k :: cs) = none := by
  simp only [strptimeMonthNums, Option.bind_eq_bind,
    matchMonthList_digit_head names 1 k hk cs hnames, Option.none_bind]

/-! ## C8: the stripping pipeline is the identity on clean date strings -/

/-- No digit is immediately followed by an ordinal-suffix pair anywhere in
the list (the condition under which the ordinal substitution is a no-op). -/
def noDigitOrdB : List Char → Bool
  | a :: b :: c :: rest => !(isOrdPair b c && isDigitC a) && noDigitOrdB (b :: c :: rest)
  | _ => true
termination_by l => l.length

theorem dropOrdinalsF_nil (f : Nat) : dropOrdinalsF f [] = [] := by
  cases f <;> rfl

theorem noDigitOrdB_short (l : List Char) (h : l.length ≤ 2) : noDigitOrdB l = true := by
  match l, h with
  | [], _ => simp [noDigitOrdB]
  | [a], _ => simp [noDigitOrdB]
  | [a, b], _ => simp [noDigitOrdB]

theorem noDigitOrdB_cons (a b c : Char) (rest : List Char)
    (h : noDigitOrdB (a :: b :: c :: rest) = true) :
    (isOrdPair b c && isDigitC a) = false ∧ noDigitOrdB (b :: c :: rest) = true := by
  have he : noDigitOrdB (a :: b :: c :: rest) =
      (!(isOrdPair b c && isDigitC a) && noDigitOrdB (b :: c :: rest)) := by
    simp [noDigitOrdB]
  rw [he] at h
  constructor
  · cases hx : (isOrdPair b c && isDigitC a) with
    | false => rfl
    | true => rw [hx] at h; cases h
  · cases hy : noDigitOrdB (b :: c :: rest) with
    | true => rfl
    | false => rw [hy, Bool.and_false] at h; cases h

theorem dropOrdinalsF_id (fuel : Nat) :
    ∀ l, noDigitOrdB l = true → dropOrdinalsF fuel l = l := by
  induction fuel with
  | zero => intro l _; rfl
  | succ f ih =>
    intro l h
    match l with
    | [] => rfl
    | [a] =>
      show a :: dropOrdinalsF f [] = [a]
      rw [dropOrdinalsF_nil]
    | [a, b] =>
      show a :: dropOrdinalsF f [b] = [a, b]
      rw [ih [b] (noDigitOrdB_short [b] (by simp))]
    | [a, b, c] =>
      obtain ⟨hw, _⟩ := noDigitOrdB_cons a b c [] h
      show (if isOrdPair b c && isDigitC a then [a] else a :: dropOrdinalsF f [b, c]) = _
      rw [if_neg (by rw [hw]; exact Bool.false_ne_true), ih [b, c] (noDigitOrdB_short [b, c] (by simp))]
    | a :: b :: c :: d2 :: rest2 =>
      obtain ⟨hw1, hrest⟩ := noDigitOrdB_cons a b c (d2 :: rest2) h
      obtain ⟨hw2, _⟩ := noDigitOrdB_cons b c d2 rest2 hrest
      show (if isOrdPair c d2 && isDigitC a && isDigitC b then
          a :: b :: dropOrdinalsF f rest2
        else if isOrdPair b c && isDigitC a then a :: dropOrdinalsF f (d2 :: rest2)
        else a :: dropOrdinalsF f (b :: c :: d2 :: rest2)) = _
      have hg1 : (isOrdPair c d2 && isDigitC a && isDigitC b) = false := by
        cases ho : isOrdPair c d2 with
        | false => rfl
        | true =>
          cases hb : isDigitC b with
          | false => simp [ho, hb]
          | true => rw [ho, hb] at hw2; cases hw2
      rw [if_neg (by rw [hg1]; exact Bool.false_ne_true),
        if_neg (by rw [hw1]; exact Bool.false_ne_true),
        ih (b :: c :: d2 :: rest2) hrest]

theorem dropOrdinals_id (l : List Char) (h : noDigitOrdB l = true) :
    dropOrdinals l = l :=
  dropOrdinalsF_id l.length l h

theorem dropWhile_head_false (p : Char → Bool) (l : List Char)
    (h : ∀ c, l.head? = some c → p c = false) : l.dropWhile p = l := by
  cases l with
  | nil => rfl
  | cons a t =>
    rw [List.dropWhile_cons, h a rfl]
    rfl

theorem pyStrip_id (l : List Char)
    (hh : ∀ c, l.head? = some c → isSpaceC c = false)
    (hl : ∀ c, l.getLast? = some c → isSpaceC c = false) : pyStrip l = l := by
  unfold pyStrip
  rw [dropWhile_head_false isSpaceC l hh,
    dropWhile_head_false isSpaceC l.reverse
      (fun c hc => hl c (by rwa [List.head?_reverse] at hc)),
    List.reverse_reverse]

theorem noDigitOrdB_cons_intro (a b c : Char) (rest : List Char)
    (hw : (isOrdPair b c && isDigitC a) = false)
    (h : noDigitOrdB (b :: c :: rest) = true) :
    noDigitOrdB (a :: b :: c :: rest) = true := by
  have he : noDigitOrdB (a :: b :: c :: rest) =
      (!(isOrdPair b c && isDigitC a) && noDigitOrdB (b :: c :: rest)) := by
    simp [noDigitOrdB]
  rw [he, hw, h]
  rfl

theorem natDigitsF_mem (f : Nat) :
    ∀ (n : Nat) (acc : List Char) (c : Char), c ∈ natDigitsF f n acc →
      (∃ k, k ≤ 9 ∧ c = digitChar10 k) ∨ c ∈ acc := by
  induction f with
  | zero =>
    intro n acc c hc
    rcases List.mem_cons.mp hc with h | h
    · exact Or.inl ⟨n % 10, by omega, h⟩
    · exact Or.inr h
  | succ f ih =>
    intro n acc c hc
    by_cases hn : n < 10
    · rw [natDigitsF_lt10 (f + 1) n acc hn] at hc
      rcases List.mem_cons.mp hc with h | h
      · exact Or.inl ⟨n, by omega, h⟩
      · exact Or.inr h
    · rw [natDigitsF_ge10_step f n acc (by omega)] at hc
      rcases ih (n / 10) (digitChar10 (n % 10) :: acc) c hc with h | h
      · exact Or.inl h
      · rcases List.mem_cons.mp h with h2 | h2
        · exact Or.inl ⟨n % 10, by omega, h2⟩
        · exact Or.inr h2

theorem natDigits_mem (n : Nat) (c : Char) (hc : c ∈ natDigits n) :
    ∃ k, k ≤ 9 ∧ c = digitChar10 k := by
  rcases natDigitsF_mem n n [] c hc with h | h
  · exact h
  · cases h

theorem bne_of_digit (c : Char) (h : isDigitC c = true) (z : Char)
    (hz : isDigitC z = false) : (c == z) = false := by
  cases hq : c == z with
  | false => rfl
  | true =>
    have he := eq_of_beq hq
    rw [he, hz] at h
    cases h

theorem ordPair_left_of_digit (c : Char) (h : isDigitC c = true) (x : Char) :
    isOrdPair c x = false := by
  unfold isOrdPair
  rw [bne_of_digit c h 's' (by decide), bne_of_digit c h 'n' (by decide),
    bne_of_digit c h 'r' (by decide), bne_of_digit c h 't' (by decide)]
  rfl

theorem head?_memC (l : List Char) (c : Char) (h : l.head? = some c) : c ∈ l := by
  cases l with
  | nil => cases h
  | cons a t =>
    have : a = c := by injection h
    rw [← this]
    exact List.mem_cons_self a t

theorem pyStrip_all (l : List Char) (h : ∀ c ∈ l, isSpaceC c = false) :
    pyStrip l = l := by
  unfold pyStrip
  rw [dropWhile_head_false isSpaceC l (fun c hc => h c (head?_memC l c hc)),
    dropWhile_head_false isSpaceC l.reverse
      (fun c hc => h c (List.mem_reverse.mp (head?_memC l.reverse c hc))),
    List.reverse_reverse]

theorem dropWeekday_not_alpha_head (l : List Char)
    (h : ∀ c, l.head? = some c → isAlphaC c = false) : dropWeekday l = l := by
  cases l with
  | nil => rfl
  | cons a t =>
    unfold dropWeekday
    rw [List.takeWhile_cons, h a rfl]
    simp

theorem noDigitOrdB_all (l : List Char)
    (h : ∀ c ∈ l, ∀ x, isOrdPair c x = false) : noDigitOrdB l = true := by
  induction l with
  | nil => simp [noDigitOrdB]
  | cons a t ih =>
    match t with
    | [] => exact noDigitOrdB_short [a] (by simp)
    | [b] => exact noDigitOrdB_short [a, b] (by simp)
    | b :: c :: rest =>
      refine noDigitOrdB_cons_intro a b c rest ?_ ?_
      · rw [h b (by simp) c]
        rfl
      · exact ih fun x hx y => h x (List.mem_cons_of_mem a hx) y

/-- The 'M/D/YYYY' textual shape for a date whose four-digit year has digits
`y1 y2 y3 y4` (exactly the string `_format_short` produces). -/
def fmtShort4 (m d y1 y2 y3 y4 : Nat) : List Char :=
  natDigits m ++ '/' :: (natDigits d ++ '/' ::
    [digitChar10 y1, digitChar10 y2, digitChar10 y3, digitChar10 y4])

/-- The 'Month D, YYYY' textual shape (full month name) for a date whose
four-digit year has digits `y1 y2 y3 y4`. -/
def fmtLong4 (m d y1 y2 y3 y4 : Nat) : List Char :=
  (monthName m).toList ++ ' ' :: (natDigits d ++ ',' :: ' ' ::
    [digitChar10 y1, digitChar10 y2, digitChar10 y3, digitChar10 y4])

theorem fmtShort4_chars (m d y1 y2 y3 y4 : Nat) (hy1 : y1 ≤ 9) (hy2 : y2 ≤ 9)
    (hy3 : y3 ≤ 9) (hy4 : y4 ≤ 9) :
    ∀ c ∈ fmtShort4 m d y1 y2 y3 y4, (∃ k, k ≤ 9 ∧ c = digitChar10 k) ∨ c = '/' := by
  intro c hc
  unfold fmtShort4 at hc
  rcases List.mem_append.mp hc with h | h
  · exact Or.inl (natDigits_mem m c h)
  · rcases List.mem_cons.mp h with h | h
    · exact Or.inr h
    · rcases List.mem_append.mp h with h | h
      · exact Or.inl (natDigits_mem d c h)
      · rcases List.mem_cons.mp h with h | h
        · exact Or.inr h
        · have : c = digitChar10 y1 ∨ c = digitChar10 y2 ∨ c = digitChar10 y3 ∨
              c = digitChar10 y4 := by simpa using h
          rcases this with rfl | rfl | rfl | rfl
          · exact Or.inl ⟨y1, hy1, rfl⟩
          · exact Or.inl ⟨y2, hy2, rfl⟩
          · exact Or.inl ⟨y3, hy3, rfl⟩
          · exact Or.inl ⟨y4, hy4, rfl⟩

theorem strippedTok_fmtShort4 (m d y1 y2 y3 y4 : Nat) (hy1 : y1 ≤ 9)
    (hy2 : y2 ≤ 9) (hy3 : y3 ≤ 9) (hy4 : y4 ≤ 9) :
    strippedTok (fmtShort4 m d y1 y2 y3 y4) = fmtShort4 m d y1 y2 y3 y4 := by
  have hchars := fmtShort4_chars m d y1 y2 y3 y4 hy1 hy2 hy3 hy4
  unfold strippedTok
  rw [pyStrip_all _ (fun c hc => by
      rcases hchars c hc with ⟨k, hk, rfl⟩ | rfl
      · exact isSpaceC_dc k hk
      · rfl),
    dropWeekday_not_alpha_head _ (fun c hc => by
      rcases hchars c (head?_memC _ c hc) with ⟨k, hk, rfl⟩ | rfl
      · exact isAlphaC_dc k hk
      · rfl),
    dropOrdinals_id _ (noDigitOrdB_all _ (fun c hc x => by
      rcases hchars c hc with ⟨k, hk, rfl⟩ | rfl
      · exact ordPair_dc_left k hk x
      · rfl))]

theorem strptimeMonthNums_fmtShort4_none (names : List (List Char))
    (hnames : ∀ nm ∈ names, ∃ p ps, nm = p :: ps ∧ isDigitC p = false)
    (m d y1 y2 y3 y4 : Nat) (hm1 : 1 ≤ m) (hm : m ≤ 12) :
    strptimeMonthNums names (fmtShort4 m d y1 y2 y3 y4) = none := by
  by_cases hm9 : m ≤ 9
  · have hshape : fmtShort4 m d y1 y2 y3 y4 = digitChar10 m ::
        ('/' :: (natDigits d ++ '/' ::
          [digitChar10 y1, digitChar10 y2, digitChar10 y3, digitChar10 y4])) := by
      unfold fmtShort4
      rw [natDigits_le9 m hm9]
      rfl
    rw [hshape]
    exact strptimeMonthNums_digit_head names m hm9 _ hnames
  · have hshape : fmtShort4 m d y1 y2 y3 y4 = digitChar10 (m / 10) ::
        (digitChar10 (m % 10) :: '/' :: (natDigits d ++ '/' ::
          [digitChar10 y1, digitChar10 y2, digitChar10 y3, digitChar10 y4])) := by
      unfold fmtShort4
      rw [natDigits_2digit m (by omega) (by omega)]
      rfl
    rw [hshape]
    exact strptimeMonthNums_digit_head names (m / 10) (by omega) _ hnames

theorem parseTokL_fmtShort4 (m d y1 y2 y3 y4 : Nat) (hm1 : 1 ≤ m) (hm : m ≤ 12)
    (hy11 : 1 ≤ y1) (hy1 : y1 ≤ 9) (hy2 : y2 ≤ 9) (hy3 : y3 ≤ 9) (hy4 : y4 ≤ 9)
    (hd1 : 1 ≤ d) (hd : d ≤ daysInMonth (1000 * y1 + 100 * y2 + 10 * y3 + y4) m) :
    parseTokL (fmtShort4 m d y1 y2 y3 y4) =
      some ⟨1000 * y1 + 100 * y2 + 10 * y3 + y4, m, d⟩ := by
  unfold parseTokL
  rw [strippedTok_fmtShort4 m d y1 y2 y3 y4 hy1 hy2 hy3 hy4]
  have hF : strptimeFull (fmtShort4 m d y1 y2 y3 y4) = none := by
    unfold strptimeFull
    rw [strptimeMonthNums_fmtShort4_none monthFullNamesL monthFullNames_letter_head
      m d y1 y2 y3 y4 hm1 hm]
    rfl
  have hA : strptimeAbbr (fmtShort4 m d y1 y2 y3 y4) = none := by
    unfold strptimeAbbr
    rw [strptimeMonthNums_fmtShort4_none monthAbbrNamesL monthAbbrNames_letter_head
      m d y1 y2 y3 y4 hm1 hm]
    rfl
  have hS : strptimeSlash (fmtShort4 m d y1 y2 y3 y4) =
      some ⟨1000 * y1 + 100 * y2 + 10 * y3 + y4, m, d⟩ :=
    strptimeSlash_digits m d y1 y2 y3 y4 hm1 hm hd1 hy11 hy1 hy2 hy3 hy4 hd
  unfold pyParseStripped
  rw [hF, hA, hS]

theorem daysInMonth_le31 (y m : Nat) : daysInMonth y m ≤ 31 := by
  unfold daysInMonth
  split_ifs <;> omega

theorem getLast?_append_last (l1 l2 : List Char) (a : Char)
    (h : l2.getLast? = some a) : (l1 ++ l2).getLast? = some a := by
  rw [List.getLast?_append, h]
  rfl

theorem getLast?_longShape (m d y1 y2 y3 y4 : Nat) :
    ((monthName m).toList ++ ' ' :: (natDigits d ++ ',' :: ' ' ::
      [digitChar10 y1, digitChar10 y2, digitChar10 y3, digitChar10 y4])).getLast? =
      some (digitChar10 y4) :=
  getLast?_append_last _ _ _ (getLast?_append_last [' '] _ _
    (getLast?_append_last (natDigits d) _ _ rfl))

theorem pyStrip_eq_of (l : List Char) (h1 : l.dropWhile isSpaceC = l)
    (h2 : l.reverse.dropWhile isSpaceC = l.reverse) : pyStrip l = l := by
  unfold pyStrip
  rw [h1, h2, List.reverse_reverse]

theorem dropWhile_space_monthName (m : Nat) (hm1 : 1 ≤ m) (hm : m ≤ 12)
    (X : List Char) :
    List.dropWhile isSpaceC ((monthName m).toList ++ X) = (monthName m).toList ++ X := by
  interval_cases m <;> rfl

theorem dropWeekday_monthName (m : Nat) (hm1 : 1 ≤ m) (hm : m ≤ 12)
    (T : List Char) :
    dropWeekday ((monthName m).toList ++ ' ' :: T) = (monthName m).toList ++ ' ' :: T := by
  interval_cases m <;> rfl

theorem matchMonthFull_name (m : Nat) (hm1 : 1 ≤ m) (hm : m ≤ 12) (T : List Char) :
    matchMonthList monthFullNamesL 1 ((monthName m).toList ++ ' ' :: T) =
      some (m, ' ' :: T) := by
  interval_cases m <;> rfl

theorem strptimeMonthNums_of_match (names : List (List Char)) (L : List Char)
    (m d y1 y2 y3 y4 : Nat) (hd1 : 1 ≤ d) (hd31 : d ≤ 31) (hy1 : y1 ≤ 9)
    (hy2 : y2 ≤ 9) (hy3 : y3 ≤ 9) (hy4 : y4 ≤ 9)
    (hmatch : matchMonthList names 1 L = some (m, ' ' :: (natDigits d ++ ',' :: ' ' ::
      [digitChar10 y1, digitChar10 y2, digitChar10 y3, digitChar10 y4]))) :
    strptimeMonthNums names L = some (m, d, 1000 * y1 + 100 * y2 + 10 * y3 + y4) := by
  have hws1 : parseWs1 (' ' :: (natDigits d ++ ',' :: ' ' ::
      [digitChar10 y1, digitChar10 y2, digitChar10 y3, digitChar10 y4])) =
      some (natDigits d ++ ',' :: ' ' ::
        [digitChar10 y1, digitChar10 y2, digitChar10 y3, digitChar10 y4]) := by
    by_cases hd9 : d ≤ 9
    · rw [natDigits_le9 d hd9]
      exact parseWs1_single (digitChar10 d) _ (isSpaceC_dc d hd9)
    · rw [natDigits_2digit d (by omega) (by omega)]
      exact parseWs1_single (digitChar10 (d / 10)) _ (isSpaceC_dc _ (by omega))
  have hws2 : parseWs1 (' ' ::
      [digitChar10 y1, digitChar10 y2, digitChar10 y3, digitChar10 y4]) =
      some [digitChar10 y1, digitChar10 y2, digitChar10 y3, digitChar10 y4] :=
    parseWs1_single _ _ (isSpaceC_dc y1 hy1)
  simp only [strptimeMonthNums, Option.bind_eq_bind, hmatch, Option.some_bind,
    hws1, parseDayTok_natDigits d ',' _ hd1 hd31 (by decide), parseLit_cons,
    hws2, parseYearEnd_dc y1 y2 y3 y4 hy1 hy2 hy3 hy4]
  rfl

theorem noDigitOrdB_two (a b : Char) : noDigitOrdB [a, b] = true :=
  noDigitOrdB_short [a, b] (by simp)

theorem noDigitOrdB_longShape (m d y1 y2 y3 y4 : Nat) (hm1 : 1 ≤ m) (hm : m ≤ 12)
    (hd1 : 1 ≤ d) (hd31 : d ≤ 31) (hy1 : y1 ≤ 9) (hy2 : y2 ≤ 9)
    (hy3 : y3 ≤ 9) :
    noDigitOrdB ((monthName m).toList ++ ' ' :: (natDigits d ++ ',' :: ' ' ::
      [digitChar10 y1, digitChar10 y2, digitChar10 y3, digitChar10 y4])) = true := by
  by_cases hd9 : d ≤ 9
  · rw [natDigits_le9 d hd9]
    interval_cases m <;>
    · repeat'
        first
        | exact noDigitOrdB_two _ _
        | refine noDigitOrdB_cons_intro _ _ _ _ ?_ ?_
      all_goals
        first
        | rfl
        | (rw [ordPair_dc_left d hd9]; rfl)
        | (rw [ordPair_dc_left y1 hy1]; rfl)
        | (rw [ordPair_dc_left y2 hy2]; rfl)
        | (rw [ordPair_dc_left y3 hy3]; rfl)
  · rw [natDigits_2digit d (by omega) (by omega)]
    interval_cases m <;>
    · repeat'
        first
        | exact noDigitOrdB_two _ _
        | refine noDigitOrdB_cons_intro _ _ _ _ ?_ ?_
      all_goals
        first
        | rfl
        | (rw [ordPair_dc_left (d / 10) (by omega)]; rfl)
        | (rw [ordPair_dc_left (d % 10) (by omega)]; rfl)
        | (rw [ordPair_dc_left y1 hy1]; rfl)
        | (rw [ordPair_dc_left y2 hy2]; rfl)
        | (rw [ordPair_dc_left y3 hy3]; rfl)

theorem pyParseStripped_fmtLong4 (m d y1 y2 y3 y4 : Nat) (hm1 : 1 ≤ m) (hm : m ≤ 12)
    (hy11 : 1 ≤ y1) (hy1 : y1 ≤ 9) (hy2 : y2 ≤ 9) (hy3 : y3 ≤ 9) (hy4 : y4 ≤ 9)
    (hd1 : 1 ≤ d) (hd : d ≤ daysInMonth (1000 * y1 + 100 * y2 + 10 * y3 + y4) m) :
    pyParseStripped (fmtLong4 m d y1 y2 y3 y4) =
      some ⟨1000 * y1 + 100 * y2 + 10 * y3 + y4, m, d⟩ := by
  have hd31 : d ≤ 31 := le_trans hd (daysInMonth_le31 _ _)
  have hF : strptimeFull ((monthName m).toList ++ ' ' :: (natDigits d ++ ',' :: ' ' ::
      [digitChar10 y1, digitChar10 y2, digitChar10 y3, digitChar10 y4])) =
      some ⟨1000 * y1 + 100 * y2 + 10 * y3 + y4, m, d⟩ := by
    unfold strptimeFull
    rw [strptimeMonthNums_of_match monthFullNamesL _ m d y1 y2 y3 y4 hd1 hd31
      hy1 hy2 hy3 hy4 (matchMonthFull_name m hm1 hm _)]
    exact mkDate_of_valid (1000 * y1 + 100 * y2 + 10 * y3 + y4) m d
      ⟨by omega, by omega, hm1, hm, hd1, hd⟩
  unfold fmtLong4 pyParseStripped
  rw [hF]

theorem parseTokL_fmtLong4 (m d y1 y2 y3 y4 : Nat) (hm1 : 1 ≤ m) (hm : m ≤ 12)
    (hy11 : 1 ≤ y1) (hy1 : y1 ≤ 9) (hy2 : y2 ≤ 9) (hy3 : y3 ≤ 9) (hy4 : y4 ≤ 9)
    (hd1 : 1 ≤ d) (hd : d ≤ daysInMonth (1000 * y1 + 100 * y2 + 10 * y3 + y4) m) :
    parseTokL (fmtLong4 m d y1 y2 y3 y4) =
      some ⟨1000 * y1 + 100 * y2 + 10 * y3 + y4, m, d⟩ := by
  have hd31 : d ≤ 31 := le_trans hd (daysInMonth_le31 _ _)
  unfold parseTokL fmtLong4
  have hstrip : strippedTok ((monthName m).toList ++ ' ' :: (natDigits d ++ ',' :: ' ' ::
      [digitChar10 y1, digitChar10 y2, digitChar10 y3, digitChar10 y4])) =
      (monthName m).toList ++ ' ' :: (natDigits d ++ ',' :: ' ' ::
        [digitChar10 y1, digitChar10 y2, digitChar10 y3, digitChar10 y4]) := by
    unfold strippedTok
    rw [pyStrip_eq_of _ (dropWhile_space_monthName m hm1 hm _)
        (dropWhile_head_false isSpaceC _ (fun c hc => by
          rw [List.head?_reverse, getLast?_longShape m d y1 y2 y3 y4] at hc
          injection hc with h
          rw [← h]
          exact isSpaceC_dc y4 hy4)),
      dropWeekday_monthName m hm1 hm _,
      dropOrdinals_id _
        (noDigitOrdB_longShape m d y1 y2 y3 y4 hm1 hm hd1 hd31 hy1 hy2 hy3)]
  rw [hstrip]
  exact pyParseStripped_fmtLong4 m d y1 y2 y3 y4 hm1 hm hy11 hy1 hy2 hy3 hy4 hd1 hd

theorem format_short_toList (m d y1 y2 y3 y4 : Nat) (hy11 : 1 ≤ y1)
    (hy1 : y1 ≤ 9) (hy2 : y2 ≤ 9) (hy3 : y3 ≤ 9) (hy4 : y4 ≤ 9) :
    (_format_short ⟨1000 * y1 + 100 * y2 + 10 * y3 + y4, m, d⟩).toList =
      fmtShort4 m d y1 y2 y3 y4 := by
  show (natStr m ++ "/" ++ natStr d ++ "/" ++
    natStr (1000 * y1 + 100 * y2 + 10 * y3 + y4)).data = _
  rw [String.data_append, String.data_append, String.data_append,
    String.data_append]
  show natDigits m ++ ['/'] ++ natDigits d ++ ['/'] ++
      natDigits (1000 * y1 + 100 * y2 + 10 * y3 + y4) = _
  rw [natDigits_4digit y1 y2 y3 y4 hy11 hy1 hy2 hy3 hy4]
  unfold fmtShort4
  simp [List.append_assoc]

/-! ## C8: the round trip through `renderDate`'s long-form output -/

theorem ordPair_left_nonletter (c : Char) (hs : (c == 's') = false)
    (hn : (c == 'n') = false) (hr : (c == 'r') = false) (ht : (c == 't') = false)
    (x : Char) : isOrdPair c x = false := by
  unfold isOrdPair
  rw [hs, hn, hr, ht]
  rfl

theorem ordSuffixCode_toList (d : Nat) :
    ∃ s1 s2 : Char, (ordSuffixCode d).toList = [s1, s2] ∧ isOrdPair s1 s2 = true ∧
      isDigitC s1 = false := by
  unfold ordSuffixCode
  split_ifs
  · exact ⟨'t', 'h', rfl, by decide, by decide⟩
  · exact ⟨'s', 't', rfl, by decide, by decide⟩
  · exact ⟨'n', 'd', rfl, by decide, by decide⟩
  · exact ⟨'r', 'd', rfl, by decide, by decide⟩
  · exact ⟨'t', 'h', rfl, by decide, by decide⟩

theorem weekdayName_facts (n : Nat) :
    ∃ p ps, (weekdayName n).toList = p :: ps ∧ isSpaceC p = false ∧
      ∀ c ∈ p :: ps, isAlphaC c = true := by
  rcases n with _ | _ | _ | _ | _ | _ | k
  · exact ⟨'M', ['o', 'n', 'd', 'a', 'y'], rfl, by decide, by decide⟩
  · exact ⟨'T', ['u', 'e', 's', 'd', 'a', 'y'], rfl, by decide, by decide⟩
  · exact ⟨'W', ['e', 'd', 'n', 'e', 's', 'd', 'a', 'y'], rfl, by decide, by decide⟩
  · exact ⟨'T', ['h', 'u', 'r', 's', 'd', 'a', 'y'], rfl, by decide, by decide⟩
  · exact ⟨'F', ['r', 'i', 'd', 'a', 'y'], rfl, by decide, by decide⟩
  · exact ⟨'S', ['a', 't', 'u', 'r', 'd', 'a', 'y'], rfl, by decide, by decide⟩
  · show ∃ p ps, ("Sunday" : String).toList = p :: ps ∧ isSpaceC p = false ∧
      ∀ c ∈ p :: ps, isAlphaC c = true
    exact ⟨'S', ['u', 'n', 'd', 'a', 'y'], rfl, by decide, by decide⟩

theorem dropWeekday_alpha_lead (p : Char) (ps : List Char)
    (hWa : ∀ c ∈ p :: ps, isAlphaC c = true) (T : List Char)
    (hT : T.dropWhile isSpaceC = T) :
    dropWeekday ((p :: ps) ++ ',' :: ' ' :: T) = T := by
  obtain ⟨hta, -⟩ := takeWhile_all_append isAlphaC (p :: ps) ',' (' ' :: T) hWa (by decide)
  simp only [dropWeekday]
  rw [hta, if_neg (List.cons_ne_nil p ps), List.drop_left]
  show (if (' ' :: T).takeWhile isSpaceC = [] then (p :: ps) ++ ',' :: ' ' :: T
    else (' ' :: T).dropWhile isSpaceC) = T
  rw [List.takeWhile_cons, if_pos (by decide : isSpaceC ' ' = true),
    if_neg (List.cons_ne_nil ' ' (T.takeWhile isSpaceC)),
    List.dropWhile_cons, if_pos (by decide : isSpaceC ' ' = true)]
  exact hT

theorem dropOrdinalsF_cons_nondigit (fuel : Nat) (a : Char) (rest : List Char)
    (ha : isDigitC a = false) :
    dropOrdinalsF (fuel + 1) (a :: rest) = a :: dropOrdinalsF fuel rest := by
  match rest with
  | [] => rfl
  | [b] => rfl
  | [b, c] =>
    show (if isOrdPair b c && isDigitC a then [a] else a :: dropOrdinalsF fuel [b, c]) = _
    rw [if_neg (by rw [ha, Bool.and_false]; exact Bool.false_ne_true)]
  | b :: c :: e :: rest2 =>
    show (if isOrdPair c e && isDigitC a && isDigitC b then a :: b :: dropOrdinalsF fuel rest2
      else if isOrdPair b c && isDigitC a then a :: dropOrdinalsF fuel (e :: rest2)
      else a :: dropOrdinalsF fuel (b :: c :: e :: rest2)) = _
    rw [if_neg (by rw [ha, Bool.and_false, Bool.false_and]; exact Bool.false_ne_true),
      if_neg (by rw [ha, Bool.and_false]; exact Bool.false_ne_true)]

theorem dropOrdinalsF_nondigit_lead (fuel : Nat) (T : List Char) :
    ∀ P : List Char, (∀ c ∈ P, isDigitC c = false) →
      dropOrdinalsF (fuel + P.length) (P ++ T) = P ++ dropOrdinalsF fuel T := by
  intro P
  induction P with
  | nil => intro _; rfl
  | cons a P ih =>
    intro hP
    show dropOrdinalsF (fuel + P.length + 1) (a :: (P ++ T)) =
      a :: (P ++ dropOrdinalsF fuel T)
    rw [dropOrdinalsF_cons_nondigit (fuel + P.length) a (P ++ T)
        (hP a (List.mem_cons_self a P)),
      ih (fun c hc => hP c (List.mem_cons_of_mem a hc))]

theorem dropOrdinalsF_ord1 (fuel : Nat) (a s1 s2 c : Char) (R : List Char)
    (ha : isDigitC a = true) (hs1 : isDigitC s1 = false)
    (hp : isOrdPair s1 s2 = true) :
    dropOrdinalsF (fuel + 1) (a :: s1 :: s2 :: c :: R) =
      a :: dropOrdinalsF fuel (c :: R) := by
  show (if isOrdPair s2 c && isDigitC a && isDigitC s1 then a :: s1 :: dropOrdinalsF fuel R
    else if isOrdPair s1 s2 && isDigitC a then a :: dropOrdinalsF fuel (c :: R)
    else a :: dropOrdinalsF fuel (s1 :: s2 :: c :: R)) = _
  rw [if_neg (by rw [hs1, Bool.and_false]; exact Bool.false_ne_true),
    if_pos (by rw [hp, ha]; rfl)]

theorem dropOrdinalsF_ord2 (fuel : Nat) (a b s1 s2 : Char) (R : List Char)
    (ha : isDigitC a = true) (hb : isDigitC b = true)
    (hp : isOrdPair s1 s2 = true) :
    dropOrdinalsF (fuel + 1) (a :: b :: s1 :: s2 :: R) =
      a :: b :: dropOrdinalsF fuel R := by
  show (if isOrdPair s1 s2 && isDigitC a && isDigitC b then a :: b :: dropOrdinalsF fuel R
    else if isOrdPair b s1 && isDigitC a then a :: dropOrdinalsF fuel (s2 :: R)
    else a :: dropOrdinalsF fuel (b :: s1 :: s2 :: R)) = _
  rw [if_pos (by rw [hp, ha, hb]; rfl)]

theorem noDigitOrdB_tailYears (y1 y2 y3 y4 : Nat) (hy1 : y1 ≤ 9) (hy2 : y2 ≤ 9)
    (hy3 : y3 ≤ 9) (hy4 : y4 ≤ 9) :
    noDigitOrdB (',' :: ' ' :: [digitChar10 y1, digitChar10 y2, digitChar10 y3,
      digitChar10 y4]) = true := by
  refine noDigitOrdB_all _ (fun c hc x => ?_)
  simp only [List.mem_cons, List.not_mem_nil, or_false] at hc
  rcases hc with rfl | rfl | rfl | rfl | rfl | rfl
  · exact ordPair_left_nonletter ',' (by decide) (by decide) (by decide) (by decide) x
  · exact ordPair_left_nonletter ' ' (by decide) (by decide) (by decide) (by decide) x
  · exact ordPair_dc_left y1 hy1 x
  · exact ordPair_dc_left y2 hy2 x
  · exact ordPair_dc_left y3 hy3 x
  · exact ordPair_dc_left y4 hy4 x

theorem monthName_nondigit (m : Nat) (hm1 : 1 ≤ m) (hm : m ≤ 12) :
    ∀ c ∈ (monthName m).toList, isDigitC c = false := by
  interval_cases m <;> decide

theorem dropOrdinals_body1 (M : List Char) (a s1 s2 : Char) (ys : List Char)
    (hM : ∀ c ∈ M ++ [' '], isDigitC c = false) (ha : isDigitC a = true)
    (hs1 : isDigitC s1 = false) (hp : isOrdPair s1 s2 = true)
    (hno : noDigitOrdB (',' :: ' ' :: ys) = true) :
    dropOrdinals (M ++ ' ' :: (a :: s1 :: s2 :: ',' :: ' ' :: ys)) =
      M ++ ' ' :: (a :: ',' :: ' ' :: ys) := by
  have hsplit : M ++ ' ' :: (a :: s1 :: s2 :: ',' :: ' ' :: ys)
      = (M ++ [' ']) ++ (a :: s1 :: s2 :: ',' :: ' ' :: ys) := by
    simp
  have hlen : ((M ++ [' ']) ++ (a :: s1 :: s2 :: ',' :: ' ' :: ys)).length
      = (ys.length + 4 + 1) + (M ++ [' ']).length := by
    simp only [List.length_append, List.length_cons, List.length_nil]
    omega
  unfold dropOrdinals
  rw [hsplit, hlen,
    dropOrdinalsF_nondigit_lead (ys.length + 4 + 1) _ (M ++ [' ']) hM,
    dropOrdinalsF_ord1 (ys.length + 4) a s1 s2 ',' (' ' :: ys) ha hs1 hp,
    dropOrdinalsF_id (ys.length + 4) (',' :: ' ' :: ys) hno]
  simp

theorem dropOrdinals_body2 (M : List Char) (a b s1 s2 : Char) (ys : List Char)
    (hM : ∀ c ∈ M ++ [' '], isDigitC c = false) (ha : isDigitC a = true)
    (hb : isDigitC b = true) (hp : isOrdPair s1 s2 = true)
    (hno : noDigitOrdB (',' :: ' ' :: ys) = true) :
    dropOrdinals (M ++ ' ' :: (a :: b :: s1 :: s2 :: ',' :: ' ' :: ys)) =
      M ++ ' ' :: (a :: b :: ',' :: ' ' :: ys) := by
  have hsplit : M ++ ' ' :: (a :: b :: s1 :: s2 :: ',' :: ' ' :: ys)
      = (M ++ [' ']) ++ (a :: b :: s1 :: s2 :: ',' :: ' ' :: ys) := by
    simp
  have hlen : ((M ++ [' ']) ++ (a :: b :: s1 :: s2 :: ',' :: ' ' :: ys)).length
      = (ys.length + 5 + 1) + (M ++ [' ']).length := by
    simp only [List.length_append, List.length_cons, List.length_nil]
    omega
  unfold dropOrdinals
  rw [hsplit, hlen,
    dropOrdinalsF_nondigit_lead (ys.length + 5 + 1) _ (M ++ [' ']) hM,
    dropOrdinalsF_ord2 (ys.length + 5) a b s1 s2 (',' :: ' ' :: ys) ha hb hp,
    dropOrdinalsF_id (ys.length + 5) (',' :: ' ' :: ys) hno]
  simp

theorem dropOrdinals_renderBody (m d y1 y2 y3 y4 : Nat) (s1 s2 : Char)
    (hm1 : 1 ≤ m) (hm : m ≤ 12) (hd1 : 1 ≤ d) (hd31 : d ≤ 31)
    (hp : isOrdPair s1 s2 = true) (hs1 : isDigitC s1 = false)
    (hy1 : y1 ≤ 9) (hy2 : y2 ≤ 9) (hy3 : y3 ≤ 9) (hy4 : y4 ≤ 9) :
    dropOrdinals ((monthName m).toList ++ ' ' :: (natDigits d ++ s1 :: s2 :: ',' :: ' ' ::
        [digitChar10 y1, digitChar10 y2, digitChar10 y3, digitChar10 y4])) =
      fmtLong4 m d y1 y2 y3 y4 := by
  have hM : ∀ c ∈ (monthName m).toList ++ [' '], isDigitC c = false := by
    intro c hc
    rcases List.mem_append.mp hc with h | h
    · exact monthName_nondigit m hm1 hm c h
    · rw [List.mem_singleton] at h
      rw [h]
      rfl
  have hno := noDigitOrdB_tailYears y1 y2 y3 y4 hy1 hy2 hy3 hy4
  unfold fmtLong4
  by_cases hd9 : d ≤ 9
  · rw [natDigits_le9 d hd9]
    simp only [List.singleton_append]
    exact dropOrdinals_body1 (monthName m).toList (digitChar10 d) s1 s2 _
      hM (isDigitC_dc d hd9) hs1 hp hno
  · rw [natDigits_2digit d (by omega) (by omega)]
    simp only [List.cons_append, List.singleton_append]
    exact dropOrdinals_body2 (monthName m).toList (digitChar10 (d / 10))
      (digitChar10 (d % 10)) s1 s2 _ hM (isDigitC_dc (d / 10) (by omega))
      (isDigitC_dc (d % 10) (by omega)) hp hno

theorem renderDate_toList (Y m d : Nat) (s1 s2 : Char)
    (hsfx : (ordSuffixCode d).toList = [s1, s2]) :
    (renderDate ⟨Y, m, d⟩).toList =
      (weekdayName (dayOfWeekIdx ⟨Y, m, d⟩)).toList ++ ',' :: ' ' ::
        ((monthName m).toList ++ ' ' :: (natDigits d ++ s1 :: s2 :: ',' :: ' ' ::
          natDigits Y)) := by
  show (weekdayName (dayOfWeekIdx ⟨Y, m, d⟩) ++ ", " ++ monthName m ++ " " ++
      natStr d ++ ordSuffixCode d ++ ", " ++ natStr Y).data = _
  rw [String.data_append, String.data_append, String.data_append,
    String.data_append, String.data_append, String.data_append,
    show (", " : String).data = [',', ' '] from rfl,
    show (" " : String).data = [' '] from rfl,
    show (natStr d).data = natDigits d from rfl,
    show (natStr Y).data = natDigits Y from rfl,
    show (ordSuffixCode d).data = [s1, s2] from hsfx]
  simp [String.toList, List.append_assoc]

theorem getLast?_renderShape (W M D : List Char) (s1 s2 : Char) (y1 y2 y3 y4 : Nat) :
    (W ++ ',' :: ' ' :: (M ++ ' ' :: (D ++ s1 :: s2 :: ',' :: ' ' ::
      [digitChar10 y1, digitChar10 y2, digitChar10 y3, digitChar10 y4]))).getLast? =
      some (digitChar10 y4) :=
  getLast?_append_last _ _ _ (getLast?_append_last [','] _ _ (getLast?_append_last [' '] _ _
    (getLast?_append_last M _ _ (getLast?_append_last [' '] _ _
      (getLast?_append_last D _ _ rfl)))))

theorem parseTokL_render (m d y1 y2 y3 y4 : Nat) (hm1 : 1 ≤ m) (hm : m ≤ 12)
    (hy11 : 1 ≤ y1) (hy1 : y1 ≤ 9) (hy2 : y2 ≤ 9) (hy3 : y3 ≤ 9) (hy4 : y4 ≤ 9)
    (hd1 : 1 ≤ d) (hd : d ≤ daysInMonth (1000 * y1 + 100 * y2 + 10 * y3 + y4) m) :
    parseTokL (renderDate ⟨1000 * y1 + 100 * y2 + 10 * y3 + y4, m, d⟩).toList =
      some ⟨1000 * y1 + 100 * y2 + 10 * y3 + y4, m, d⟩ := by
  have hd31 : d ≤ 31 := le_trans hd (daysInMonth_le31 _ _)
  obtain ⟨s1, s2, hsfx, hp, hs1⟩ := ordSuffixCode_toList d
  have hlist := renderDate_toList (1000 * y1 + 100 * y2 + 10 * y3 + y4) m d s1 s2 hsfx
  rw [natDigits_4digit y1 y2 y3 y4 hy11 hy1 hy2 hy3 hy4] at hlist
  obtain ⟨p, ps, hW, hWs, hWa⟩ :=
    weekdayName_facts (dayOfWeekIdx ⟨1000 * y1 + 100 * y2 + 10 * y3 + y4, m, d⟩)
  rw [hW] at hlist
  have hstrip : pyStrip ((p :: ps) ++ ',' :: ' ' :: ((monthName m).toList ++ ' ' ::
      (natDigits d ++ s1 :: s2 :: ',' :: ' ' ::
        [digitChar10 y1, digitChar10 y2, digitChar10 y3, digitChar10 y4]))) =
      (p :: ps) ++ ',' :: ' ' :: ((monthName m).toList ++ ' ' ::
      (natDigits d ++ s1 :: s2 :: ',' :: ' ' ::
        [digitChar10 y1, digitChar10 y2, digitChar10 y3, digitChar10 y4])) := by
    refine pyStrip_id _ (fun c hc => ?_) (fun c hc => ?_)
    · rw [List.cons_append, List.head?_cons] at hc
      rw [← Option.some.inj hc]
      exact hWs
    · rw [getLast?_renderShape (p :: ps) (monthName m).toList (natDigits d)
        s1 s2 y1 y2 y3 y4] at hc
      rw [← Option.some.inj hc]
      exact isSpaceC_dc y4 hy4
  have hdw : dropWeekday ((p :: ps) ++ ',' :: ' ' :: ((monthName m).toList ++ ' ' ::
      (natDigits d ++ s1 :: s2 :: ',' :: ' ' ::
        [digitChar10 y1, digitChar10 y2, digitChar10 y3, digitChar10 y4]))) =
      (monthName m).toList ++ ' ' :: (natDigits d ++ s1 :: s2 :: ',' :: ' ' ::
        [digitChar10 y1, digitChar10 y2, digitChar10 y3, digitChar10 y4]) :=
    dropWeekday_alpha_lead p ps hWa _ (dropWhile_space_monthName m hm1 hm _)
  unfold parseTokL strippedTok
  rw [hlist, hstrip, hdw,
    dropOrdinals_renderBody m d y1 y2 y3 y4 s1 s2 hm1 hm hd1 hd31 hp hs1
      hy1 hy2 hy3 hy4]
  exact pyParseStripped_fmtLong4 m d y1 y2 y3 y4 hm1 hm hy11 hy1 hy2 hy3 hy4 hd1 hd

/-- C8 counterexample: (500, 3, 3) is a valid calendar date, but its two
textual renderings "3/3/500" and "March 3, 500" both fail to parse — the
strptime `%Y` directive and the fallback regexes require exactly four year
digits — so the round trip does not reproduce the date (the parse is absent
and renders as "TBD"). -/
theorem roundtrip_small_year_cex :
    validDate 500 3 3 ∧
    _format_short ⟨500, 3, 3⟩ = "3/3/500" ∧
    _parse_one_date_token "3/3/500" = none ∧
    _parse_one_date_token "March 3, 500" = none := by
  refine ⟨by decide, by decide, by decide, by decide⟩

/-- C8 as amended: for every valid calendar date whose year has four digits
(1000-9999, year digits `y1 y2 y3 y4`), formatting it in either supported
textual shape — 'M/D/YYYY' (exactly the string `_format_short` produces) or
'Month D, YYYY' with the full month name — and parsing that text with
`_parse_one_date_token` recovers exactly the same calendar date; likewise,
parsing the long-form output of `renderDate` — 'Weekday, Month Dth, YYYY',
with the weekday name and the ordinal suffix — recovers the same date. -/
theorem parse_format_roundtrip (m d y1 y2 y3 y4 : Nat)
    (hm1 : 1 ≤ m) (hm : m ≤ 12) (hy11 : 1 ≤ y1) (hy1 : y1 ≤ 9) (hy2 : y2 ≤ 9)
    (hy3 : y3 ≤ 9) (hy4 : y4 ≤ 9) (hd1 : 1 ≤ d)
    (hd : d ≤ daysInMonth (1000 * y1 + 100 * y2 + 10 * y3 + y4) m) :
    _parse_one_date_token
        (_format_short ⟨1000 * y1 + 100 * y2 + 10 * y3 + y4, m, d⟩) =
      some ⟨1000 * y1 + 100 * y2 + 10 * y3 + y4, m, d⟩ ∧
    _parse_one_date_token (String.mk (fmtLong4 m d y1 y2 y3 y4)) =
      some ⟨1000 * y1 + 100 * y2 + 10 * y3 + y4, m, d⟩ ∧
    _parse_one_date_token
        (renderDate ⟨1000 * y1 + 100 * y2 + 10 * y3 + y4, m, d⟩) =
      some ⟨1000 * y1 + 100 * y2 + 10 * y3 + y4, m, d⟩ := by
  refine ⟨?_, ?_, ?_⟩
  · show parseTokL (_format_short _).toList = _
    rw [format_short_toList m d y1 y2 y3 y4 hy11 hy1 hy2 hy3 hy4]
    exact parseTokL_fmtShort4 m d y1 y2 y3 y4 hm1 hm hy11 hy1 hy2 hy3 hy4 hd1 hd
  · show parseTokL (String.mk (fmtLong4 m d y1 y2 y3 y4)).toList = _
    exact parseTokL_fmtLong4 m d y1 y2 y3 y4 hm1 hm hy11 hy1 hy2 hy3 hy4 hd1 hd
  · exact parseTokL_render m d y1 y2 y3 y4 hm1 hm hy11 hy1 hy2 hy3 hy4 hd1 hd

/-- C8 witness: the round trip at June 2, 2025 through all three textual
shapes, including the rendered long form "Monday, June 2nd, 2025". -/
theorem parse_format_roundtrip_witness :
    _parse_one_date_token "6/2/2025" = some ⟨2025, 6, 2⟩ ∧
    _parse_one_date_token "June 2, 2025" = some ⟨2025, 6, 2⟩ ∧
    renderDate ⟨2025, 6, 2⟩ = "Monday, June 2nd, 2025" ∧
    _parse_one_date_token "Monday, June 2nd, 2025" = some ⟨2025, 6, 2⟩ := by
  have h := parse_format_roundtrip 6 2 2 0 2 5 (by decide) (by decide)
    (by decide) (by decide) (by decide) (by decide) (by decide) (by decide)
    (by decide)
  have hr : renderDate ⟨2025, 6, 2⟩ = "Monday, June 2nd, 2025" := by decide
  refine ⟨h.1, h.2.1, hr, ?_⟩
  rw [← hr]
  exact h.2.2
